import Mathlib

/-
  Verification of the mqttools MQTT 5.0 broker and client library.

  Shallow embedding conventions:
  * A Python `bytes` value is a `List Nat`, each element intended to lie in
    0..255 (hypotheses state the bound where it matters).
  * Python strings are represented by their UTF-8 byte sequences
    (`pack_string` length-prefixes the encoded bytes, so byte length is what
    appears on the wire; the UTF-8 encode/decode pair is the identity on
    valid byte sequences).
  * Fallible decoding (`MalformedPacketError`, short reads) is `Option`:
    `none` is a raised error.
  * Functions defined by loops that consume input carry an explicit fuel
    argument where the structural recursion is not on the input list; fuel
    is always instantiated large enough that it never runs out on the
    executions the theorems talk about.
-/

namespace Mqttools

/-! ## Association-list helpers (Python `dict` with insertion order) -/

/-- Lookup in an association list (first binding wins, as in a dict with
unique keys). -/
def alLookup {α : Type} [DecidableEq α] {β : Type} : List (α × β) → α → Option β
  | [], _ => none
  | (k, v) :: rest, key => if k = key then some v else alLookup rest key

/-- Python `d[k] = v`: replace the value in place if the key is present,
otherwise append the new binding (dicts preserve insertion order). -/
def dictInsert {α : Type} [DecidableEq α] {β : Type} :
    List (α × β) → α → β → List (α × β)
  | [], key, v => [(key, v)]
  | (k, w) :: rest, key, v =>
    if k = key then (k, v) :: rest else (k, w) :: dictInsert rest key v

/-- Python `del d[k]` tolerant of a missing key (`remove_retained_message`
swallows `KeyError`): drop the first binding of the key. -/
def dictErase {α : Type} [DecidableEq α] {β : Type} : List (α × β) → α → List (α × β)
  | [], _ => []
  | (k, w) :: rest, key => if k = key then rest else (k, w) :: dictErase rest key

/-! ## Variable-length integers (common.py `pack_variable_integer`,
`unpack_variable_integer`) -/

/-- Loop body of `pack_variable_integer` for a non-zero value: emit the low
seven bits, with bit 7 set when more bytes follow.  The first argument is
fuel; with fuel at least the value the loop never runs out. -/
def packVarLoop : Nat → Nat → List Nat
  | 0, _ => []
  | fuel + 1, v =>
    if v = 0 then []
    else
      ((v &&& 0x7f) ||| (if v >>> 7 > 0 then 0x80 else 0)) :: packVarLoop fuel (v >>> 7)

/-- common.py `pack_variable_integer`: 0 encodes as the single byte 0, any
other value by the base-128 continuation loop. -/
def pack_variable_integer (value : Nat) : List Nat :=
  if value = 0 then [0] else packVarLoop value value

/-- Loop of common.py `unpack_variable_integer`: read bytes while the top
bit is set, accumulating `value` with a growing multiplier.  Running out of
bytes is the `MalformedPacketError` raised by `PayloadReader.read`. -/
def unpackVarLoop : List Nat → Nat → Nat → Option (Nat × List Nat)
  | [], _, _ => none
  | b :: rest, value, multiplier =>
    let value := value + (b &&& 0x7f) * multiplier
    if b &&& 0x80 = 0x80 then unpackVarLoop rest value (multiplier <<< 7)
    else some (value, rest)

/-- common.py `unpack_variable_integer` on a byte stream; returns the value
and the unread remainder of the stream. -/
def unpack_variable_integer (payload : List Nat) : Option (Nat × List Nat) :=
  unpackVarLoop payload 0 1

/-- common.py `MAXIMUM_PACKET_SIZE = 268435455  # (128 ^ 4 - 1)`. -/
def MAXIMUM_PACKET_SIZE : Nat := 268435455

/-! ## Fixed-width primitives (common.py `pack_u8` .. `unpack_u32`,
strings and binaries) -/

/-- struct.pack('B', v); the caller guarantees v < 256. -/
def pack_u8 (value : Nat) : List Nat := [value]

/-- common.py `unpack_u8`: read one byte or fail. -/
def unpack_u8 : List Nat → Option (Nat × List Nat)
  | [] => none
  | b :: rest => some (b, rest)

/-- struct.pack('>H', v), big-endian; the caller guarantees v < 65536. -/
def pack_u16 (value : Nat) : List Nat := [value / 256, value % 256]

/-- common.py `unpack_u16`: read two big-endian bytes or fail. -/
def unpack_u16 : List Nat → Option (Nat × List Nat)
  | b1 :: b0 :: rest => some (b1 * 256 + b0, rest)
  | _ => none

/-- struct.pack('>I', v), big-endian; the caller guarantees v < 2^32. -/
def pack_u32 (value : Nat) : List Nat :=
  [value / 16777216, value / 65536 % 256, value / 256 % 256, value % 256]

/-- common.py `unpack_u32`: read four big-endian bytes or fail. -/
def unpack_u32 : List Nat → Option (Nat × List Nat)
  | b3 :: b2 :: b1 :: b0 :: rest =>
    some (b3 * 16777216 + b2 * 65536 + b1 * 256 + b0, rest)
  | _ => none

/-- PayloadReader.read(size): take exactly `n` bytes or raise. -/
def readBytes (n : Nat) (payload : List Nat) : Option (List Nat × List Nat) :=
  if n ≤ payload.length then some (payload.take n, payload.drop n) else none

/-- common.py `pack_string` on the UTF-8 byte representation: two-byte
big-endian length prefix, then the bytes. -/
def pack_string (data : List Nat) : List Nat := pack_u16 data.length ++ data

/-- common.py `unpack_string`: length prefix then that many bytes (UTF-8
decoding of valid bytes is the identity in this embedding). -/
def unpack_string (payload : List Nat) : Option (List Nat × List Nat) := do
  let (size, rest) ← unpack_u16 payload
  readBytes size rest

/-- common.py `pack_binary`: same wire shape as a string. -/
def pack_binary (data : List Nat) : List Nat := pack_u16 data.length ++ data

/-- common.py `unpack_binary`. -/
def unpack_binary (payload : List Nat) : Option (List Nat × List Nat) := do
  let (size, rest) ← unpack_u16 payload
  readBytes size rest

/-! ## Round-trip lemmas for the primitives -/

theorem unpack_u8_pack (v : Nat) (rest : List Nat) :
    unpack_u8 (pack_u8 v ++ rest) = some (v, rest) := rfl

theorem unpack_u16_pack (v : Nat) (hv : v < 65536) (rest : List Nat) :
    unpack_u16 (pack_u16 v ++ rest) = some (v, rest) := by
  simp only [pack_u16, List.cons_append, List.nil_append, unpack_u16]
  congr 1
  congr 1
  omega

theorem unpack_u32_pack (v : Nat) (hv : v < 4294967296) (rest : List Nat) :
    unpack_u32 (pack_u32 v ++ rest) = some (v, rest) := by
  simp only [pack_u32, List.cons_append, List.nil_append, unpack_u32]
  congr 1
  congr 1
  omega

theorem readBytes_exact (data rest : List Nat) :
    readBytes data.length (data ++ rest) = some (data, rest) := by
  simp [readBytes, List.take_left, List.drop_left]

theorem unpack_string_pack (s : List Nat) (hs : s.length < 65536) (rest : List Nat) :
    unpack_string (pack_string s ++ rest) = some (s, rest) := by
  simp only [pack_string, unpack_string, List.append_assoc,
    unpack_u16_pack s.length hs (s ++ rest), Option.bind_eq_bind, Option.some_bind]
  exact readBytes_exact s rest

theorem unpack_binary_pack (s : List Nat) (hs : s.length < 65536) (rest : List Nat) :
    unpack_binary (pack_binary s ++ rest) = some (s, rest) := by
  simp only [pack_binary, unpack_binary, List.append_assoc,
    unpack_u16_pack s.length hs (s ++ rest), Option.bind_eq_bind, Option.some_bind]
  exact readBytes_exact s rest

/-! ## Variable-integer round trip -/

theorem byte_or128_and127 : ∀ x < 128, (x ||| 128) &&& 127 = x := by decide

theorem byte_or128_and128 : ∀ x < 128, (x ||| 128) &&& 128 = 128 := by decide

theorem byte_lt128_and128 : ∀ x < 128, x &&& 128 = 0 := by decide

theorem nat_and127 (v : Nat) : v &&& 127 = v % 128 := by
  simpa using Nat.and_pow_two_sub_one_eq_mod v 7

theorem nat_shr7 (v : Nat) : v >>> 7 = v / 128 := Nat.shiftRight_eq_div_pow v 7

theorem packVarLoop_zero (fuel : Nat) : packVarLoop fuel 0 = [] := by
  cases fuel <;> simp [packVarLoop]

theorem unpackVarLoop_packVarLoop (fuel : Nat) :
    ∀ v, 0 < v → v ≤ fuel → ∀ acc mult rest,
      unpackVarLoop (packVarLoop fuel v ++ rest) acc mult =
        some (acc + v * mult, rest) := by
  induction fuel with
  | zero => intro v hv hle; omega
  | succ n ih =>
    intro v hv hle acc mult rest
    have hv0 : v ≠ 0 := by omega
    rw [packVarLoop, if_neg hv0]
    by_cases hq : v >>> 7 > 0
    · have hmod : v &&& 127 < 128 := by
        rw [nat_and127]; exact Nat.mod_lt _ (by norm_num)
      rw [if_pos hq]
      simp only [List.cons_append, unpackVarLoop, List.append_eq]
      rw [if_pos (byte_or128_and128 _ hmod), byte_or128_and127 _ hmod]
      have hrec : v >>> 7 ≤ n := by
        rw [nat_shr7] at *
        omega
      rw [ih (v >>> 7) hq hrec]
      congr 2
      rw [nat_and127, nat_shr7, Nat.shiftLeft_eq]
      nlinarith [Nat.div_add_mod v 128]
    · have hsmall : v < 128 := by
        rw [nat_shr7] at hq
        omega
      have hand : v &&& 127 = v := by rw [nat_and127]; omega
      have h0 : v >>> 7 = 0 := by omega
      rw [if_neg hq]
      simp only [List.cons_append, unpackVarLoop, Nat.or_zero, hand, h0,
        packVarLoop_zero, List.nil_append]
      rw [if_neg (by rw [byte_lt128_and128 v hsmall]; omega)]
      rfl

/-- Round trip of the variable-length integer for every value (the decoder
imposes no length limit, so no upper bound is needed here). -/
theorem unpack_pack_variable_integer (v : Nat) (rest : List Nat) :
    unpack_variable_integer (pack_variable_integer v ++ rest) = some (v, rest) := by
  by_cases hv : v = 0
  · subst hv; rfl
  · rw [pack_variable_integer, if_neg hv, unpack_variable_integer,
      unpackVarLoop_packVarLoop v v (by omega) (by omega) 0 1 rest]
    simp

theorem packVarLoop_length (fuel : Nat) :
    ∀ v k, v < 128 ^ k → (packVarLoop fuel v).length ≤ k := by
  induction fuel with
  | zero => intro v k _; simp [packVarLoop]
  | succ n ih =>
    intro v k hk
    by_cases hv : v = 0
    · simp [packVarLoop, hv]
    · rw [packVarLoop, if_neg hv]
      match k with
      | 0 => simp at hk; omega
      | k + 1 =>
        simp only [List.length_cons, Nat.add_le_add_iff_right]
        apply ih
        rw [nat_shr7]
        have : 128 ^ (k + 1) = 128 * 128 ^ k := by ring
        rw [this] at hk
        exact Nat.div_lt_of_lt_mul hk

theorem pack_variable_integer_length_le (v : Nat) (hv : v ≤ MAXIMUM_PACKET_SIZE) :
    (pack_variable_integer v).length ≤ 4 := by
  by_cases h : v = 0
  · simp [pack_variable_integer, h]
  · rw [pack_variable_integer, if_neg h]
    apply packVarLoop_length
    have : MAXIMUM_PACKET_SIZE = 128 ^ 4 - 1 := by norm_num [MAXIMUM_PACKET_SIZE]
    omega

theorem pack_variable_integer_length_pos (v : Nat) :
    1 ≤ (pack_variable_integer v).length := by
  by_cases h : v = 0
  · simp [pack_variable_integer, h]
  · rw [pack_variable_integer, if_neg h]
    match hf : v with
    | 0 => omega
    | n + 1 => simp [packVarLoop]

/-! ## Properties (common.py `pack_property` .. `unpack_properties`)

A property value is either an integer (u8/u16/u32/variable integer on the
wire) or a byte sequence (string or binary on the wire).  `propKind` is the
closed dispatch table shared by `pack_property` and `unpack_property`. -/

inductive PropValue : Type
  | num (n : Nat)
  | bytes (b : List Nat)
deriving DecidableEq, Repr

inductive PropKind : Type
  | u8 | u16 | u32 | varint | str | bin
deriving DecidableEq, Repr

/-- Encoding kind of each property identifier, from the dictionaries in
common.py `pack_property`/`unpack_property` (note USER_PROPERTY(38) is
packed with `pack_string` in this code base). -/
def propKind (id : Nat) : Option PropKind :=
  if id = 1 then some .u8          -- PAYLOAD_FORMAT_INDICATOR
  else if id = 2 then some .u32    -- MESSAGE_EXPIRY_INTERVAL
  else if id = 3 then some .str    -- CONTENT_TYPE
  else if id = 8 then some .str    -- RESPONSE_TOPIC
  else if id = 9 then some .bin    -- CORRELATION_DATA
  else if id = 11 then some .varint -- SUBSCRIPTION_IDENTIFIER
  else if id = 17 then some .u32   -- SESSION_EXPIRY_INTERVAL
  else if id = 18 then some .str   -- ASSIGNED_CLIENT_IDENTIFIER
  else if id = 19 then some .u16   -- SERVER_KEEP_ALIVE
  else if id = 21 then some .str   -- AUTHENTICATION_METHOD
  else if id = 22 then some .bin   -- AUTHENTICATION_DATA
  else if id = 23 then some .u8    -- REQUEST_PROBLEM_INFORMATION
  else if id = 24 then some .u32   -- WILL_DELAY_INTERVAL
  else if id = 25 then some .u8    -- REQUEST_RESPONSE_INFORMATION
  else if id = 26 then some .str   -- RESPONSE_INFORMATION
  else if id = 28 then some .str   -- SERVER_REFERENCE
  else if id = 31 then some .str   -- REASON_STRING
  else if id = 33 then some .u16   -- RECEIVE_MAXIMUM
  else if id = 34 then some .u16   -- TOPIC_ALIAS_MAXIMUM
  else if id = 35 then some .u16   -- TOPIC_ALIAS
  else if id = 36 then some .u8    -- MAXIMUM_QOS
  else if id = 37 then some .u8    -- RETAIN_AVAILABLE
  else if id = 38 then some .str   -- USER_PROPERTY
  else if id = 39 then some .u32   -- MAXIMUM_PACKET_SIZE
  else if id = 40 then some .u8    -- WILDCARD_SUBSCRIPTION_AVAILABLE
  else if id = 41 then some .u8    -- SUBSCRIPTION_IDENTIFIER_AVAILABLE
  else if id = 42 then some .u8    -- SHARED_SUBSCRIPTION_AVAILABLE
  else none

/-- Value part emitted by common.py `pack_property` (the packer chosen from
the dispatch dictionary); `none` models the KeyError / struct.error raised
on an unknown identifier or a value of the wrong type. -/
def packPropertyValue (id : Nat) (v : PropValue) : Option (List Nat) :=
  match propKind id, v with
  | some .u8, .num n => some (pack_u8 n)
  | some .u16, .num n => some (pack_u16 n)
  | some .u32, .num n => some (pack_u32 n)
  | some .varint, .num n => some (pack_variable_integer n)
  | some .str, .bytes b => some (pack_string b)
  | some .bin, .bytes b => some (pack_binary b)
  | _, _ => none

/-- common.py `pack_property`: identifier byte followed by the packed value. -/
def pack_property (id : Nat) (v : PropValue) : Option (List Nat) :=
  (packPropertyValue id v).map (fun bs => id :: bs)

/-- Concatenation of the packed properties in insertion order (the loop body
of common.py `pack_properties`). -/
def packPropsList : List (Nat × PropValue) → Option (List Nat)
  | [] => some []
  | (id, v) :: rest => do
    let bs ← pack_property id v
    let bs2 ← packPropsList rest
    pure (bs ++ bs2)

/-- common.py `pack_properties`: variable-integer length prefix followed by
the packed `(identifier, value)` pairs. -/
def pack_properties (props : List (Nat × PropValue)) : Option (List Nat) :=
  (packPropsList props).map (fun packed => pack_variable_integer packed.length ++ packed)

/-- common.py `unpack_property`: decode one value by the kind table. -/
def unpackPropertyValue (id : Nat) (payload : List Nat) : Option (PropValue × List Nat) :=
  match propKind id with
  | some .u8 => (unpack_u8 payload).map (fun p => (.num p.1, p.2))
  | some .u16 => (unpack_u16 payload).map (fun p => (.num p.1, p.2))
  | some .u32 => (unpack_u32 payload).map (fun p => (.num p.1, p.2))
  | some .varint => (unpack_variable_integer payload).map (fun p => (.num p.1, p.2))
  | some .str => (unpack_string payload).map (fun p => (.bytes p.1, p.2))
  | some .bin => (unpack_binary payload).map (fun p => (.bytes p.1, p.2))
  | none => none

/-- Loop of common.py `unpack_properties`: while the reader position is
before `end_pos`, read one identifier byte, reject identifiers outside the
caller's whitelist, decode the value, and store it with dict assignment.
`budget` is `end_pos - tell` (saturating, as the position may overrun);
`fuel` only bounds the iteration count and never runs out when
`budget ≤ fuel`, since every iteration consumes at least the identifier
byte. -/
def unpackPropsLoop (allowed : List Nat) (fuel budget : Nat)
    (acc : List (Nat × PropValue)) (payload : List Nat) :
    Option (List (Nat × PropValue) × List Nat) :=
  if budget = 0 then some (acc, payload)
  else
    match fuel, payload with
    | 0, _ => none
    | _ + 1, [] => none
    | fuel + 1, id :: rest =>
      if id ∈ allowed then
        match unpackPropertyValue id rest with
        | none => none
        | some (v, rest2) =>
          unpackPropsLoop allowed fuel (budget - (1 + (rest.length - rest2.length)))
            (dictInsert acc id v) rest2
      else none

/-- common.py `unpack_properties`: read the length prefix, then run the
property loop over that many bytes. -/
def unpack_properties (allowed : List Nat) (payload : List Nat) :
    Option (List (Nat × PropValue) × List Nat) := do
  let (n, rest) ← unpack_variable_integer payload
  unpackPropsLoop allowed n n [] rest

/-- Well-formedness of one property value: the kind matches the identifier
and fixed-width integers are in range (the conditions under which the
Python packers do not raise). -/
def propValueWF (id : Nat) (v : PropValue) : Bool :=
  match propKind id, v with
  | some .u8, .num n => n < 256
  | some .u16, .num n => n < 65536
  | some .u32, .num n => n < 4294967296
  | some .varint, .num _ => true
  | some .str, .bytes b => b.length < 65536
  | some .bin, .bytes b => b.length < 65536
  | _, _ => false

/-! ### Property round-trip lemmas -/

theorem packPropertyValue_isSome (id : Nat) (v : PropValue)
    (h : propValueWF id v = true) : ∃ bs, packPropertyValue id v = some bs := by
  unfold propValueWF at h
  unfold packPropertyValue
  rcases hk : propKind id with _ | k
  · rw [hk] at h; cases v <;> simp at h
  · cases k <;> cases v <;> simp_all

theorem unpackPropertyValue_pack (id : Nat) (v : PropValue) (bs : List Nat)
    (h : propValueWF id v = true) (hp : packPropertyValue id v = some bs)
    (rest : List Nat) :
    unpackPropertyValue id (bs ++ rest) = some (v, rest) := by
  unfold propValueWF at h
  unfold packPropertyValue at hp
  unfold unpackPropertyValue
  rcases hk : propKind id with _ | k
  · rw [hk] at h; cases v <;> simp at h
  · cases k <;> cases v <;> simp_all <;>
      (subst hp
       first
        | exact unpack_u8_pack _ rest
        | exact unpack_u16_pack _ h rest
        | exact unpack_u32_pack _ h rest
        | exact unpack_pack_variable_integer _ rest
        | exact unpack_string_pack _ h rest
        | exact unpack_binary_pack _ h rest)

theorem alLookup_append_single_none {acc : List (Nat × PropValue)} {key k : Nat}
    {v : PropValue} (h : alLookup acc key = none) (hne : k ≠ key) :
    alLookup (acc ++ [(k, v)]) key = none := by
  induction acc with
  | nil => simp [alLookup, hne]
  | cons p rest ih =>
    obtain ⟨pk, pv⟩ := p
    unfold alLookup at h ⊢
    by_cases hpk : pk = key
    · simp [hpk] at h
    · simp only [hpk, if_false, List.cons_append]
      exact ih (by simpa [alLookup, hpk] using h)

theorem dictInsert_append_of_lookup_none {acc : List (Nat × PropValue)} {k : Nat}
    {v : PropValue} (h : alLookup acc k = none) :
    dictInsert acc k v = acc ++ [(k, v)] := by
  induction acc with
  | nil => rfl
  | cons p rest ih =>
    obtain ⟨pk, pv⟩ := p
    unfold alLookup at h
    by_cases hpk : pk = k
    · simp [hpk] at h
    · simp only [dictInsert, hpk, if_false, List.cons_append, List.cons.injEq, true_and]
      exact ih (by simpa [hpk] using h)

theorem unpackPropsLoop_pack (allowed : List Nat) :
    ∀ (props : List (Nat × PropValue)) (packed : List Nat)
      (acc : List (Nat × PropValue)) (fuel : Nat) (rest : List Nat),
      packPropsList props = some packed →
      (∀ p ∈ props, p.1 ∈ allowed ∧ propValueWF p.1 p.2 = true) →
      (∀ p ∈ props, alLookup acc p.1 = none) →
      (props.map Prod.fst).Nodup →
      packed.length ≤ fuel →
      unpackPropsLoop allowed fuel packed.length acc (packed ++ rest) =
        some (acc ++ props, rest) := by
  intro props
  induction props with
  | nil =>
    intro packed acc fuel rest hp _ _ _ _
    simp only [packPropsList] at hp
    cases hp
    rw [unpackPropsLoop.eq_def]
    simp
  | cons hd tl ih =>
    intro packed acc fuel rest hp hwf hacc hnd hfuel
    obtain ⟨id, v⟩ := hd
    simp only [packPropsList, pack_property, Option.bind_eq_bind] at hp
    match hv : packPropertyValue id v with
    | none => rw [hv] at hp; simp at hp
    | some bs =>
      rw [hv] at hp
      simp only [Option.map_some', Option.some_bind] at hp
      match ht : packPropsList tl with
      | none => rw [ht] at hp; simp at hp
      | some packedTl =>
        rw [ht] at hp
        simp only [Option.some_bind, Option.pure_def, Option.some.injEq] at hp
        subst hp
        have hhd := hwf (id, v) (by simp)
        have hlen : ((id :: bs) ++ packedTl).length = 1 + bs.length + packedTl.length := by
          simp; omega
        rw [hlen]
        rw [unpackPropsLoop.eq_def]
        rw [if_neg (by omega)]
        match fuel, hfuel with
        | fuel + 1, _ =>
          simp only [List.cons_append, List.append_assoc]
          rw [if_pos hhd.1]
          rw [unpackPropertyValue_pack id v bs hhd.2 hv (packedTl ++ rest)]
          show unpackPropsLoop allowed fuel
              (1 + bs.length + packedTl.length -
                (1 + ((bs ++ (packedTl ++ rest)).length - (packedTl ++ rest).length)))
              (dictInsert acc id v) (packedTl ++ rest) =
            some (acc ++ (id, v) :: tl, rest)
          have harith : 1 + bs.length + packedTl.length -
              (1 + ((bs ++ (packedTl ++ rest)).length - (packedTl ++ rest).length)) =
              packedTl.length := by
            simp only [List.length_append]
            omega
          rw [harith]
          rw [dictInsert_append_of_lookup_none (hacc (id, v) (by simp))]
          have hfuel2 : packedTl.length ≤ fuel := by
            rw [hlen] at hfuel
            omega
          have hnd2 : (tl.map Prod.fst).Nodup := by
            simp only [List.map_cons, List.nodup_cons] at hnd
            exact hnd.2
          have hidtl : ∀ p ∈ tl, p.1 ≠ id := by
            intro p hm heq
            simp only [List.map_cons, List.nodup_cons] at hnd
            exact hnd.1 (heq ▸ List.mem_map_of_mem Prod.fst hm)
          have hacc2 : ∀ p ∈ tl, alLookup (acc ++ [(id, v)]) p.1 = none := by
            intro p hm
            exact alLookup_append_single_none (hacc p (List.mem_cons_of_mem _ hm))
              (fun heq => hidtl p hm heq.symm)
          rw [ih packedTl (acc ++ [(id, v)]) fuel rest ht
            (fun p hm => hwf p (List.mem_cons_of_mem _ hm)) hacc2 hnd2 hfuel2]
          simp

theorem unpack_pack_properties (allowed : List Nat) (props : List (Nat × PropValue))
    (hwf : ∀ p ∈ props, p.1 ∈ allowed ∧ propValueWF p.1 p.2 = true)
    (hnd : (props.map Prod.fst).Nodup) :
    ∃ pp, pack_properties props = some pp ∧
      ∀ rest, unpack_properties allowed (pp ++ rest) = some (props, rest) := by
  have hsome : ∃ packed, packPropsList props = some packed := by
    clear hnd
    induction props with
    | nil => exact ⟨[], rfl⟩
    | cons hd tl ih =>
      obtain ⟨id, v⟩ := hd
      obtain ⟨bs, hbs⟩ := packPropertyValue_isSome id v (hwf (id, v) (by simp)).2
      obtain ⟨packedTl, hTl⟩ := ih (fun p hm => hwf p (List.mem_cons_of_mem _ hm))
      exact ⟨(id :: bs) ++ packedTl, by
        simp [packPropsList, pack_property, hbs, hTl]⟩
  obtain ⟨packed, hpacked⟩ := hsome
  refine ⟨pack_variable_integer packed.length ++ packed, ?_, ?_⟩
  · simp [pack_properties, hpacked]
  · intro rest
    unfold unpack_properties
    rw [List.append_assoc, unpack_pack_variable_integer packed.length (packed ++ rest)]
    simp only [Option.bind_eq_bind, Option.some_bind]
    simpa using unpackPropsLoop_pack allowed props packed [] packed.length rest
      hpacked hwf (by simp [alLookup]) hnd le_rfl

/-! ## CONNECT (common.py `pack_connect` / `unpack_connect`) -/

/-- Connection flag masks, common.py lines 10-16. -/
def CLEAN_START : Nat := 0x02

def WILL_FLAG : Nat := 0x04

def WILL_QOS_1 : Nat := 0x08

def WILL_QOS_2 : Nat := 0x10

def WILL_RETAIN : Nat := 0x20

def PASSWORD_FLAG : Nat := 0x40

def USER_NAME_FLAG : Nat := 0x80

/-- common.py `PROTOCOL_VERSION = 5` (MQTT 5.0). -/
def PROTOCOL_VERSION : Nat := 5

/-- UTF-8 bytes of the magic string 'MQTT'. -/
def MQTT_MAGIC : List Nat := [77, 81, 84, 84]

/-- Property identifiers `unpack_connect` accepts in the CONNECT property
table (common.py lines 468-478). -/
def connectAllowedPropertyIds : List Nat := [17, 21, 22, 23, 25, 33, 34, 38, 39]

/-- Property identifiers accepted in the will property table
(common.py lines 485-492). -/
def connectWillAllowedPropertyIds : List Nat := [24, 1, 2, 3, 8, 38]

/-- common.py `pack_fixed_header`: `(type << 4) | flags` byte then the
remaining length as a variable integer. -/
def pack_fixed_header (message_type flags size : Nat) : List Nat :=
  ((message_type <<< 4) ||| flags) :: pack_variable_integer size

/-- Connect flags byte assembled by `pack_connect` (truthiness of
`will_topic` in Python maps to non-emptiness of the byte list). -/
def connectFlags (clean_start : Bool) (will_topic : List Nat)
    (will_retain : Bool) (will_qos : Nat) : Nat :=
  let flags := if clean_start then CLEAN_START else 0
  if will_topic ≠ [] then
    let flags := flags ||| WILL_FLAG
    let flags := if will_retain then flags ||| WILL_RETAIN else flags
    if will_qos = 1 then flags ||| WILL_QOS_1
    else if will_qos = 2 then flags ||| WILL_QOS_2
    else flags
  else flags

/-- The `payload_length` computed by `pack_connect` and used only in the
declared remaining length.  Python counts `len(client_id)` in characters
while the wire carries UTF-8 bytes; this embedding uses the byte length
(they agree on ASCII client ids, and the value never feeds the decoder). -/
def connectPayloadLength (client_id will_topic will_message : List Nat) : Nat :=
  client_id.length + 2 +
    (if will_topic ≠ [] then
      1 + (pack_string will_topic).length + will_message.length + 2
     else 0)

/-- Everything `pack_connect` appends after the fixed header: magic,
version, flags, keep-alive, property table, client id, and the will block
when the will flag is set. -/
def connectBody (client_id : List Nat) (clean_start : Bool)
    (will_topic will_message : List Nat) (will_retain : Bool)
    (will_qos keep_alive_s : Nat) (properties : List (Nat × PropValue)) :
    Option (List Nat) := do
  let flags := connectFlags clean_start will_topic will_retain will_qos
  let props ← pack_properties properties
  pure (pack_string MQTT_MAGIC ++ pack_u8 PROTOCOL_VERSION ++ pack_u8 flags ++
    pack_u16 keep_alive_s ++ props ++ pack_string client_id ++
    (if flags &&& WILL_FLAG ≠ 0 then
      pack_variable_integer 0 ++ pack_string will_topic ++ pack_binary will_message
     else []))

/-- common.py `pack_connect`: fixed header (type CONNECT = 1, flags 0,
declared size `10 + payload_length + len(properties)`) followed by the
body. -/
def pack_connect (client_id : List Nat) (clean_start : Bool)
    (will_topic will_message : List Nat) (will_retain : Bool)
    (will_qos keep_alive_s : Nat) (properties : List (Nat × PropValue)) :
    Option (List Nat) := do
  let props ← pack_properties properties
  let body ← connectBody client_id clean_start will_topic will_message
    will_retain will_qos keep_alive_s properties
  pure (pack_fixed_header 1 0
    (10 + connectPayloadLength client_id will_topic will_message + props.length) ++ body)

/-- Result of common.py `unpack_connect` (the 9-tuple it returns). -/
structure ConnectFields where
  client_id : List Nat
  clean_start : Bool
  will_topic : Option (List Nat)
  will_message : Option (List Nat)
  will_retain : Option Bool
  keep_alive_s : Nat
  properties : List (Nat × PropValue)
  user_name : Option (List Nat)
  password : Option (List Nat)
deriving DecidableEq, Repr

/-- common.py `unpack_connect`, reading the CONNECT body: magic string,
protocol version, flags, keep-alive, property table, client id, optional
will block (its property table is decoded and discarded, as in the
source), optional user name and password. -/
def unpack_connect (payload : List Nat) : Option ConnectFields := do
  let (magic, r1) ← unpack_string payload
  if magic = MQTT_MAGIC then
    let (ver, r2) ← unpack_u8 r1
    if ver = PROTOCOL_VERSION then
      let (flags, r3) ← unpack_u8 r2
      let (keep_alive_s, r4) ← unpack_u16 r3
      let (properties, r5) ← unpack_properties connectAllowedPropertyIds r4
      let (client_id, r6) ← unpack_string r5
      let (wt, wm, wr, r7) ←
        if flags &&& WILL_FLAG ≠ 0 then do
          let (_willProps, r6a) ← unpack_properties connectWillAllowedPropertyIds r6
          let (will_topic, r6b) ← unpack_string r6a
          let (will_message, r6c) ← unpack_binary r6b
          pure (some will_topic, some will_message,
            some (flags &&& WILL_RETAIN != 0), r6c)
        else pure (none, none, none, r6)
      let (user_name, r8) ←
        if flags &&& USER_NAME_FLAG ≠ 0 then do
          let (u, r7a) ← unpack_string r7
          pure (some u, r7a)
        else pure (none, r7)
      let (password, _r9) ←
        if flags &&& PASSWORD_FLAG ≠ 0 then do
          let (p, r8a) ← unpack_binary r8
          pure (some p, r8a)
        else pure (none, r8)
      pure { client_id := client_id
             clean_start := flags &&& CLEAN_START != 0
             will_topic := wt
             will_message := wm
             will_retain := wr
             keep_alive_s := keep_alive_s
             properties := properties
             user_name := user_name
             password := password }
    else none
  else none

/-! ### Connect flags facts -/

theorem connectFlags_willBit (cs wr : Bool) (wt : List Nat) (wq : Nat) :
    (connectFlags cs wt wr wq &&& WILL_FLAG ≠ 0) ↔ wt ≠ [] := by
  unfold connectFlags CLEAN_START WILL_FLAG WILL_QOS_1 WILL_QOS_2 WILL_RETAIN
  split_ifs <;> simp_all <;> decide

theorem connectFlags_cleanBit (cs wr : Bool) (wt : List Nat) (wq : Nat) :
    ((connectFlags cs wt wr wq &&& CLEAN_START) != 0) = cs := by
  unfold connectFlags CLEAN_START WILL_FLAG WILL_QOS_1 WILL_QOS_2 WILL_RETAIN
  split_ifs <;> simp_all <;> decide

theorem connectFlags_retainBit (cs wr : Bool) (wt : List Nat) (wq : Nat)
    (h : wt ≠ []) :
    ((connectFlags cs wt wr wq &&& WILL_RETAIN) != 0) = wr := by
  unfold connectFlags CLEAN_START WILL_FLAG WILL_QOS_1 WILL_QOS_2 WILL_RETAIN
  split_ifs <;> simp_all <;> decide

theorem connectFlags_userBit (cs wr : Bool) (wt : List Nat) (wq : Nat) :
    connectFlags cs wt wr wq &&& USER_NAME_FLAG = 0 := by
  unfold connectFlags CLEAN_START WILL_FLAG WILL_QOS_1 WILL_QOS_2 WILL_RETAIN
    USER_NAME_FLAG
  split_ifs <;> decide

theorem connectFlags_pwBit (cs wr : Bool) (wt : List Nat) (wq : Nat) :
    connectFlags cs wt wr wq &&& PASSWORD_FLAG = 0 := by
  unfold connectFlags CLEAN_START WILL_FLAG WILL_QOS_1 WILL_QOS_2 WILL_RETAIN
    PASSWORD_FLAG
  split_ifs <;> decide

theorem unpack_properties_empty_prefix (allowed : List Nat) (x : List Nat) :
    unpack_properties allowed (0 :: x) = some ([], x) := by
  rw [unpack_properties]
  have h1 : unpack_variable_integer (0 :: x) = some (0, x) := by
    simp [unpack_variable_integer, unpackVarLoop]
  rw [h1]
  simp only [Option.bind_eq_bind, Option.some_bind]
  rw [unpackPropsLoop.eq_def]
  simp

theorem unpack_u8_cons (b : Nat) (x : List Nat) : unpack_u8 (b :: x) = some (b, x) := rfl

theorem unpack_string_pack_nil (s : List Nat) (hs : s.length < 65536) :
    unpack_string (pack_string s) = some (s, []) := by
  simpa using unpack_string_pack s hs []

theorem unpack_binary_pack_nil (s : List Nat) (hs : s.length < 65536) :
    unpack_binary (pack_binary s) = some (s, []) := by
  simpa using unpack_binary_pack s hs []

/-- C1: decoding the encoding of a well-formed CONNECT returns the packet:
`unpack_connect` applied to the body produced by `pack_connect` (everything
after the fixed header) returns the same client id, clean-start flag, will
topic, will payload, will retain flag, keep-alive and properties that were
encoded (the will fields are absent exactly when no will topic was
supplied, matching the truthiness test in `pack_connect`). -/
theorem connect_roundtrip
    (client_id will_topic will_message : List Nat) (clean_start will_retain : Bool)
    (will_qos keep_alive_s : Nat) (properties : List (Nat × PropValue))
    (hcid : client_id.length < 65536) (hwt : will_topic.length < 65536)
    (hwm : will_message.length < 65536) (hka : keep_alive_s < 65536)
    (hwf : ∀ p ∈ properties, p.1 ∈ connectAllowedPropertyIds ∧ propValueWF p.1 p.2 = true)
    (hnd : (properties.map Prod.fst).Nodup) :
    ∃ body hdr,
      connectBody client_id clean_start will_topic will_message will_retain
        will_qos keep_alive_s properties = some body ∧
      pack_connect client_id clean_start will_topic will_message will_retain
        will_qos keep_alive_s properties = some (hdr ++ body) ∧
      unpack_connect body = some
        { client_id := client_id
          clean_start := clean_start
          will_topic := if will_topic = [] then none else some will_topic
          will_message := if will_topic = [] then none else some will_message
          will_retain := if will_topic = [] then none else some will_retain
          keep_alive_s := keep_alive_s
          properties := properties
          user_name := none
          password := none } := by
  obtain ⟨pp, hpp, hun⟩ := unpack_pack_properties connectAllowedPropertyIds properties hwf hnd
  have hbody : connectBody client_id clean_start will_topic will_message will_retain
      will_qos keep_alive_s properties
      = some (pack_string MQTT_MAGIC ++ pack_u8 PROTOCOL_VERSION ++
          pack_u8 (connectFlags clean_start will_topic will_retain will_qos) ++
          pack_u16 keep_alive_s ++ pp ++ pack_string client_id ++
          (if connectFlags clean_start will_topic will_retain will_qos &&& WILL_FLAG ≠ 0 then
            pack_variable_integer 0 ++ pack_string will_topic ++ pack_binary will_message
           else [])) := by
    unfold connectBody
    rw [hpp]
    rfl
  refine ⟨_, pack_fixed_header 1 0
    (10 + connectPayloadLength client_id will_topic will_message + pp.length),
    hbody, ?_, ?_⟩
  · unfold pack_connect
    rw [hpp, hbody]
    rfl
  · have hmagic : MQTT_MAGIC.length < 65536 := by norm_num [MQTT_MAGIC]
    have hvz : pack_variable_integer 0 = [0] := rfl
    by_cases hnil : will_topic = []
    · subst hnil
      have hW : ¬(connectFlags clean_start [] will_retain will_qos &&& WILL_FLAG ≠ 0) := by
        simp [connectFlags_willBit]
      simp only [unpack_connect, Option.bind_eq_bind, Option.some_bind,
        List.append_assoc, List.singleton_append, List.append_nil, List.nil_append,
        List.cons_append, pack_u8,
        unpack_string_pack MQTT_MAGIC hmagic, unpack_string_pack client_id hcid,
        unpack_u8_cons, unpack_u16_pack keep_alive_s hka, hun, hW,
        unpack_string_pack_nil client_id hcid,
        connectFlags_userBit, connectFlags_pwBit, connectFlags_cleanBit,
        eq_self_iff_true, if_true, if_false, ite_true, ite_false, ne_eq, not_true,
        not_false_iff, Option.pure_def]
    · have hW : connectFlags clean_start will_topic will_retain will_qos &&& WILL_FLAG ≠ 0 :=
        (connectFlags_willBit clean_start will_retain will_topic will_qos).2 hnil
      simp only [unpack_connect, Option.bind_eq_bind, Option.some_bind,
        List.append_assoc, List.singleton_append, List.append_nil, List.nil_append,
        List.cons_append, pack_u8, hvz,
        unpack_string_pack MQTT_MAGIC hmagic, unpack_string_pack client_id hcid,
        unpack_string_pack will_topic hwt, unpack_binary_pack will_message hwm,
        unpack_u8_cons, unpack_u16_pack keep_alive_s hka, hun, hW, hnil,
        unpack_binary_pack_nil will_message hwm,
        unpack_properties_empty_prefix,
        connectFlags_userBit, connectFlags_pwBit, connectFlags_cleanBit,
        connectFlags_retainBit clean_start will_retain will_topic will_qos hnil,
        eq_self_iff_true, if_true, if_false, ite_true, ite_false, ne_eq, not_true,
        not_false_iff, Option.pure_def]

/-- Witness for the CONNECT round trip at a concrete packet: client id
"bar", will topic "foo", will payload [1, 2], retained, QoS 1, keep-alive
60, with session-expiry and receive-maximum properties. -/
theorem connect_roundtrip_witness :
    (([98, 97, 114] : List Nat).length < 65536 ∧
     ([102, 111, 111] : List Nat).length < 65536 ∧
     ([1, 2] : List Nat).length < 65536 ∧ (60 : Nat) < 65536 ∧
     (∀ p ∈ ([(17, PropValue.num 10), (33, PropValue.num 5)] : List (Nat × PropValue)),
        p.1 ∈ connectAllowedPropertyIds ∧ propValueWF p.1 p.2 = true) ∧
     (([(17, PropValue.num 10), (33, PropValue.num 5)] : List (Nat × PropValue)).map
        Prod.fst).Nodup) ∧
    (∃ body hdr,
      connectBody [98, 97, 114] true [102, 111, 111] [1, 2] true 1 60
        [(17, PropValue.num 10), (33, PropValue.num 5)] = some body ∧
      pack_connect [98, 97, 114] true [102, 111, 111] [1, 2] true 1 60
        [(17, PropValue.num 10), (33, PropValue.num 5)] = some (hdr ++ body) ∧
      unpack_connect body = some
        { client_id := [98, 97, 114]
          clean_start := true
          will_topic := if ([102, 111, 111] : List Nat) = [] then none else some [102, 111, 111]
          will_message := if ([102, 111, 111] : List Nat) = [] then none else some [1, 2]
          will_retain := if ([102, 111, 111] : List Nat) = [] then none else some true
          keep_alive_s := 60
          properties := [(17, PropValue.num 10), (33, PropValue.num 5)]
          user_name := none
          password := none }) :=
  ⟨⟨by decide, by decide, by decide, by decide, by decide, by decide⟩,
   connect_roundtrip [98, 97, 114] [102, 111, 111] [1, 2] true true 1 60
     [(17, PropValue.num 10), (33, PropValue.num 5)]
     (by decide) (by decide) (by decide) (by decide) (by decide) (by decide)⟩

/-- C7: for every value v with 0 <= v <= 268435455, decoding the
variable-length-integer encoding of v returns v, the encoding is between 1
and 4 bytes long, and value 0 encodes as the single byte 0x00. -/
theorem variable_integer_roundtrip (v : Nat) (hv : v ≤ 268435455) :
    unpack_variable_integer (pack_variable_integer v) = some (v, []) ∧
    1 ≤ (pack_variable_integer v).length ∧
    (pack_variable_integer v).length ≤ 4 ∧
    pack_variable_integer 0 = [0] := by
  refine ⟨?_, pack_variable_integer_length_pos v, pack_variable_integer_length_le v hv, rfl⟩
  simpa using unpack_pack_variable_integer v []

/-- Witness for the variable-integer round trip at the maximum value. -/
theorem variable_integer_roundtrip_witness :
    (268435455 : Nat) ≤ 268435455 ∧
    (unpack_variable_integer (pack_variable_integer 268435455) = some (268435455, []) ∧
     1 ≤ (pack_variable_integer 268435455).length ∧
     (pack_variable_integer 268435455).length ≤ 4 ∧
     pack_variable_integer 0 = [0]) :=
  ⟨by decide, variable_integer_roundtrip 268435455 (by decide)⟩

/-- C2: the decoder imposes NO four-byte limit, contrary to the
specification and to the 4-byte bound built into the code's own
`MAXIMUM_PACKET_SIZE` constant: on the five-byte encoding
80 80 80 80 01 (first four bytes all carry the continuation bit)
`unpack_variable_integer` does not raise a malformed-packet error; it
consumes all five bytes and returns 2^28, a value above
`MAXIMUM_PACKET_SIZE`. -/
theorem unpack_variable_integer_five_bytes :
    unpack_variable_integer [128, 128, 128, 128, 1] = some (268435456, []) ∧
    MAXIMUM_PACKET_SIZE < 268435456 := by
  refine ⟨by decide, by norm_num [MAXIMUM_PACKET_SIZE]⟩

/-! ## Broker model (broker.py)

Sessions are mutable Python objects shared between the registry, the
subscription index and the handlers; the embedding gives each one a numeric
identity and keeps the object states in a map `data : Nat → SessionData`.
Bound connections (`session.client`) are numeric connection handles.
Topics and client ids are `String`s. -/

/-- broker.py `is_wildcards_in_topic`. -/
def is_wildcards_in_topic (topic : String) : Bool :=
  topic.data.contains '#' || topic.data.contains '+'

/-- Token of the regular expression built by `compile_wildcards_topic`:
a literal character, `[^/]*` (from `+`), or `.*` (from `/#` or `#`). -/
inductive Tok : Type
  | lit (c : Char)
  | anyNonSlash
  | anySeq
deriving DecidableEq, Repr

/-- The replacement pipeline of broker.py `compile_wildcards_topic`:
`+` becomes `[^/]*`, `/#` becomes `.*` (consuming the slash), a remaining
`#` becomes `.*`; other characters are literals.  (The pipeline feeds the
result to `re.compile`; this tokenisation is its meaning for filters whose
other characters carry no regex meaning, which covers every MQTT topic
made of letters, digits and `/`.) -/
def compileTokens : List Char → List Tok
  | [] => []
  | '+' :: rest => .anyNonSlash :: compileTokens rest
  | '/' :: '#' :: rest => .anySeq :: compileTokens rest
  | '#' :: rest => .anySeq :: compileTokens rest
  | c :: rest => .lit c :: compileTokens rest

/-- Anchored matching of the compiled token list against a topic
(`re_topic.match` with `^...$`).  `fuel` bounds the recursion; every call
shrinks `tokens.length + chars.length`, so any fuel above that sum gives
the true answer. -/
def toksMatch : Nat → List Tok → List Char → Bool
  | 0, _, _ => false
  | fuel + 1, ts, s =>
    match ts, s with
    | [], [] => true
    | [], _ :: _ => false
    | .lit _ :: _, [] => false
    | .lit c :: ts, x :: xs => c = x && toksMatch fuel ts xs
    | .anyNonSlash :: ts, s =>
      toksMatch fuel ts s ||
        (match s with
         | [] => false
         | x :: xs => (x != '/') && toksMatch fuel (.anyNonSlash :: ts) xs)
    | .anySeq :: ts, s =>
      toksMatch fuel ts s ||
        (match s with
         | [] => false
         | _ :: xs => toksMatch fuel (.anySeq :: ts) xs)

/-- Whether the compiled pattern of `filter` accepts `topic`. -/
def topicMatches (filter topic : String) : Bool :=
  let ts := compileTokens filter.data
  toksMatch (ts.length + topic.data.length + 1) ts topic.data

/-- broker.py `Session` object state. -/
structure SessionData where
  subscriptions : List String
  wildcard_subscriptions : List String
  expiry_interval : Nat
  client : Option Nat
  maximum_packet_size : Nat
  will_topic : Option String
  will_message : Option (List Nat)
  will_retain : Option Bool
deriving DecidableEq, Repr

/-- `Session.__init__` (the `will_retain` attribute is only created later
by `on_connect`; `none` models its absence). -/
def newSession : SessionData :=
  { subscriptions := []
    wildcard_subscriptions := []
    expiry_interval := 0
    client := none
    maximum_packet_size := MAXIMUM_PACKET_SIZE
    will_topic := none
    will_message := none
    will_retain := none }

/-- `Session.clean`: resets everything `__init__` sets (it does not touch
`will_retain`). -/
def cleanSession (s : SessionData) : SessionData :=
  { newSession with will_retain := s.will_retain }

/-- broker.py `Broker` state: the session registry (dict, insertion
order), the session objects, the literal subscriber lists
(`defaultdict(list)`), the wildcard subscriber list (compiled matchers are
derived from the stored filter), and the retained-message dict.  `nextId`
allocates fresh session identities. -/
structure BrokerState where
  sessions : List (String × Nat)
  data : Nat → SessionData
  subscribers : String → List Nat
  wildcard_subscribers : List (String × Nat)
  retained_messages : List (String × List Nat)
  nextId : Nat

/-- `Broker.__init__`. -/
def initialBroker : BrokerState :=
  { sessions := []
    data := fun _ => newSession
    subscribers := fun _ => []
    wildcard_subscribers := []
    retained_messages := []
    nextId := 0 }

/-- Mutate one session object in place. -/
def updateSession (st : BrokerState) (sid : Nat) (f : SessionData → SessionData) :
    BrokerState :=
  { st with data := fun s => if s = sid then f (st.data s) else st.data s }

/-- `Broker.add_subscriber`: append the session to the topic's list unless
already present. -/
def add_subscriber (st : BrokerState) (topic : String) (sid : Nat) : BrokerState :=
  { st with subscribers := fun t =>
      if t = topic then
        if sid ∈ st.subscribers topic then st.subscribers topic
        else st.subscribers topic ++ [sid]
      else st.subscribers t }

/-- `Broker.remove_subscriber`: delete the first occurrence, if any. -/
def remove_subscriber (st : BrokerState) (topic : String) (sid : Nat) : BrokerState :=
  { st with subscribers := fun t =>
      if t = topic then (st.subscribers topic).erase sid else st.subscribers t }

/-- `Broker.add_wildcard_subscriber`: unconditionally append. -/
def add_wildcard_subscriber (st : BrokerState) (topic : String) (sid : Nat) :
    BrokerState :=
  { st with wildcard_subscribers := st.wildcard_subscribers ++ [(topic, sid)] }

/-- `Broker.remove_wildcard_subscriber`: delete the first entry with this
filter and session, if any. -/
def remove_wildcard_subscriber (st : BrokerState) (topic : String) (sid : Nat) :
    BrokerState :=
  { st with wildcard_subscribers := st.wildcard_subscribers.erase (topic, sid) }

/-- `Broker.add_retained_message`. -/
def add_retained_message (st : BrokerState) (topic : String) (message : List Nat) :
    BrokerState :=
  { st with retained_messages := dictInsert st.retained_messages topic message }

/-- `Broker.remove_retained_message` (swallows the missing-key error). -/
def remove_retained_message (st : BrokerState) (topic : String) : BrokerState :=
  { st with retained_messages := dictErase st.retained_messages topic }

/-- `Broker.find_retained_message`. -/
def find_retained_message (st : BrokerState) (topic : String) :
    Option (String × List Nat) :=
  (alLookup st.retained_messages topic).map (fun m => (topic, m))

/-- `Broker.find_retained_messages_wildcards`: scan the retained dict in
insertion order, yielding entries the filter matches. -/
def find_retained_messages_wildcards (st : BrokerState) (filter : String) :
    List (String × List Nat) :=
  st.retained_messages.filter (fun p => topicMatches filter p.1)

/-- `Broker.iter_subscribers`: first every live session in the literal
list of the topic, then — wildcard list in order — every live session
whose compiled filter matches.  A session meeting several of these
criteria is yielded once per criterion. -/
def iter_subscribers (st : BrokerState) (topic : String) : List Nat :=
  ((st.subscribers topic).filter (fun sid => (st.data sid).client.isSome)) ++
    ((st.wildcard_subscribers.filter
        (fun p => (st.data p.2).client.isSome && topicMatches p.1 topic)).map Prod.snd)

/-- `Broker.publish`: one `session.client.publish(topic, message)` call per
yielded session; the result lists the receiving sessions in write order. -/
def publish (st : BrokerState) (topic : String) : List Nat :=
  iter_subscribers st topic

/-- `Broker.get_session`: reuse the registered session (cleaning it and
de-indexing its subscriptions on clean start), or create and register a
fresh one.  Returns the session and `session_present`. -/
def get_session (st : BrokerState) (client_id : String) (clean_start : Bool) :
    BrokerState × Nat × Bool :=
  match alLookup st.sessions client_id with
  | some sid =>
    if clean_start then
      let st1 := ((st.data sid).subscriptions).foldl
        (fun s t => remove_subscriber s t sid) st
      let st2 := ((st.data sid).wildcard_subscriptions).foldl
        (fun s t => remove_wildcard_subscriber s t sid) st1
      (updateSession st2 sid cleanSession, sid, false)
    else (st, sid, true)
  | none =>
    let sid := st.nextId
    ({ st with
        sessions := st.sessions ++ [(client_id, sid)]
        data := fun s => if s = sid then newSession else st.data s
        nextId := sid + 1 }, sid, false)

/-- Outcome of `Client.on_connect` that matters to the broker state. -/
structure ConnectResult where
  state : BrokerState
  sid : Nat
  session_present : Bool
  reason : Nat

/-- `Client.on_connect` (broker.py lines 186-240): get or create the
session, bind it to this connection, then in source order: reason 140
(BAD_AUTHENTICATION_METHOD) if an AuthenticationMethod property (21) is
present; adopt MaximumPacketSize (39); store the will; adopt
SessionExpiryInterval (17); reason 134 (BAD_USER_NAME_OR_PASSWORD) if a
user name or password was supplied — this later assignment overwrites the
140.  The CONNACK carrying `(session_present, reason)` is then written,
and a non-zero reason raises ConnectError. -/
def on_connect (st : BrokerState) (connId : Nat) (client_id : String)
    (clean_start : Bool) (will_topic : Option String)
    (will_message : Option (List Nat)) (will_retain : Option Bool)
    (properties : List (Nat × PropValue))
    (user_name password : Option (List Nat)) : ConnectResult :=
  let g := get_session st client_id clean_start
  let st1 := g.1
  let sid := g.2.1
  let session_present := g.2.2
  let st2 := updateSession st1 sid (fun s => { s with client := some connId })
  let reason : Nat := 0
  let reason := if (alLookup properties 21).isSome then 140 else reason
  let st3 := match alLookup properties 39 with
    | some (.num n) => updateSession st2 sid (fun s => { s with maximum_packet_size := n })
    | _ => st2
  let st4 := updateSession st3 sid (fun s =>
    { s with will_topic := will_topic, will_message := will_message,
             will_retain := will_retain })
  let st5 := match alLookup properties 17 with
    | some (.num n) => updateSession st4 sid (fun s => { s with expiry_interval := n })
    | _ => st4
  let reason := if user_name.isSome || password.isSome then 134 else reason
  ⟨st5, sid, session_present, reason⟩

/-- `Client.on_publish`: reject wildcard topics as malformed; with the
retain flag, a non-empty payload is stored and an empty payload removes
the retained entry; in all cases the message is then fanned out.  Returns
the new state and the sessions the PUBLISH is written to. -/
def on_publish (st : BrokerState) (topic : String) (message : List Nat)
    (retainFlag : Bool) : Option (BrokerState × List Nat) :=
  if is_wildcards_in_topic topic then none
  else
    let st1 :=
      if retainFlag then
        if message ≠ [] then add_retained_message st topic message
        else remove_retained_message st topic
      else st
    some (st1, publish st1 topic)

/-- One topic of `Client.on_subscribe`: wildcard filters go to the
session's wildcard set and the broker's wildcard list, literal ones to the
session's set and the topic's subscriber list, each guarded by membership
in the session's set.  (Retained-message delivery and the SUBACK do not
change broker state.) -/
def subscribeTopic (st : BrokerState) (sid : Nat) (topic : String) : BrokerState :=
  if is_wildcards_in_topic topic then
    if topic ∈ (st.data sid).wildcard_subscriptions then st
    else
      add_wildcard_subscriber
        (updateSession st sid (fun s =>
          { s with wildcard_subscriptions := s.wildcard_subscriptions ++ [topic] }))
        topic sid
  else
    if topic ∈ (st.data sid).subscriptions then st
    else
      add_subscriber
        (updateSession st sid (fun s =>
          { s with subscriptions := s.subscriptions ++ [topic] }))
        topic sid

/-- `Client.on_subscribe` over the subscription list of the packet. -/
def on_subscribe (st : BrokerState) (sid : Nat) (topics : List String) : BrokerState :=
  topics.foldl (fun s t => subscribeTopic s sid t) st

/-- One topic of `Client.on_unsubscribe`: remove from the session's set
and the matching broker structure when present. -/
def unsubscribeTopic (st : BrokerState) (sid : Nat) (topic : String) : BrokerState :=
  if is_wildcards_in_topic topic then
    if topic ∈ (st.data sid).wildcard_subscriptions then
      remove_wildcard_subscriber
        (updateSession st sid (fun s =>
          { s with wildcard_subscriptions := s.wildcard_subscriptions.erase topic }))
        topic sid
    else st
  else
    if topic ∈ (st.data sid).subscriptions then
      remove_subscriber
        (updateSession st sid (fun s =>
          { s with subscriptions := s.subscriptions.erase topic }))
        topic sid
    else st

/-- `Client.on_unsubscribe` over the topic list of the packet. -/
def on_unsubscribe (st : BrokerState) (sid : Nat) (topics : List String) : BrokerState :=
  topics.foldl (fun s t => unsubscribeTopic s sid t) st

/-- Broker-facing events a reachable execution is made of: CONNECT
handling, SUBSCRIBE/UNSUBSCRIBE by a connected client (looked up through
the registry, as each live handler's `_session` came from `get_session`),
and PUBLISH. -/
inductive Op : Type
  | connect (connId : Nat) (client_id : String) (clean_start : Bool)
      (will_topic : Option String) (will_message : Option (List Nat))
      (will_retain : Option Bool) (properties : List (Nat × PropValue))
      (user_name password : Option (List Nat))
  | subscribe (client_id : String) (topics : List String)
  | unsubscribe (client_id : String) (topics : List String)
  | pub (topic : String) (message : List Nat) (retainFlag : Bool)

/-- Effect of one event on the broker state. -/
def applyOp (st : BrokerState) : Op → BrokerState
  | .connect c cid cs wt wm wr props u p =>
    (on_connect st c cid cs wt wm wr props u p).state
  | .subscribe cid topics =>
    match alLookup st.sessions cid with
    | some sid => on_subscribe st sid topics
    | none => st
  | .unsubscribe cid topics =>
    match alLookup st.sessions cid with
    | some sid => on_unsubscribe st sid topics
    | none => st
  | .pub t m r =>
    match on_publish st t m r with
    | some (st1, _) => st1
    | none => st

/-- The broker state after a sequence of events from a fresh broker. -/
def applyOps (ops : List Op) : BrokerState :=
  ops.foldl applyOp initialBroker


/-! ## Helper lemmas on the broker state -/

theorem updateSession_data_self (st : BrokerState) (sid : Nat)
    (f : SessionData → SessionData) :
    (updateSession st sid f).data sid = f (st.data sid) := by
  simp [updateSession]

theorem updateSession_data_other (st : BrokerState) (sid s : Nat)
    (f : SessionData → SessionData) (h : s ≠ sid) :
    (updateSession st sid f).data s = st.data s := by
  simp [updateSession, h]

theorem alLookup_append_self {α β : Type} [DecidableEq α]
    {l : List (α × β)} {k : α} {v : β} (h : alLookup l k = none) :
    alLookup (l ++ [(k, v)]) k = some v := by
  induction l with
  | nil => simp [alLookup]
  | cons p rest ih =>
    obtain ⟨pk, pv⟩ := p
    unfold alLookup at h ⊢
    by_cases hpk : pk = k
    · simp [hpk] at h
    · simp only [hpk, if_false, List.cons_append]
      exact ih (by simpa [hpk] using h)

theorem alLookup_dictErase_self {α β : Type} [DecidableEq α]
    (l : List (α × β)) (k : α) (hnd : (l.map Prod.fst).Nodup) :
    alLookup (dictErase l k) k = none := by
  induction l with
  | nil => rfl
  | cons p rest ih =>
    obtain ⟨pk, pv⟩ := p
    simp only [List.map_cons, List.nodup_cons] at hnd
    unfold dictErase
    by_cases hpk : pk = k
    · subst hpk
      rw [if_pos rfl]
      match hr : alLookup rest pk with
      | none => rfl
      | some w =>
        exfalso
        apply hnd.1
        clear ih hnd
        induction rest with
        | nil => simp [alLookup] at hr
        | cons q rq ihq =>
          obtain ⟨qk, qv⟩ := q
          unfold alLookup at hr
          by_cases hqk : qk = pk
          · simp [hqk]
          · simp only [hqk, if_false] at hr
            simp [ihq hr]
    · simp only [if_neg hpk]
      unfold alLookup
      simp only [hpk, if_false]
      exact ih hnd.2

/-- Sequencing fact used by several claims: `get_session` leaves the
client id registered and bound to the returned session. -/
theorem get_session_sessions_lookup (st : BrokerState) (cid : String) (cs : Bool) :
    alLookup (get_session st cid cs).1.sessions cid = some (get_session st cid cs).2.1 := by
  unfold get_session
  match h : alLookup st.sessions cid with
  | some sid =>
    by_cases hcs : cs
    · simp only [hcs, if_true]
      have h1 : ∀ (l : List String) (s : BrokerState),
          (l.foldl (fun s t => remove_subscriber s t sid) s).sessions = s.sessions := by
        intro l
        induction l with
        | nil => intro s; rfl
        | cons t ts ih => intro s; rw [List.foldl_cons]; exact ih _
      have h2 : ∀ (l : List String) (s : BrokerState),
          (l.foldl (fun s t => remove_wildcard_subscriber s t sid) s).sessions = s.sessions := by
        intro l
        induction l with
        | nil => intro s; rfl
        | cons t ts ih => intro s; rw [List.foldl_cons]; exact ih _
      show alLookup (updateSession _ sid cleanSession).sessions cid = some sid
      unfold updateSession
      simp only
      rw [h2, h1]
      exact h
    · simp only [hcs, if_false]
      exact h
  | none =>
    simp only
    exact alLookup_append_self h

theorem on_connect_sessions_lookup (st : BrokerState) (c : Nat) (cid : String)
    (cs : Bool) (wt : Option String) (wm : Option (List Nat)) (wr : Option Bool)
    (props : List (Nat × PropValue)) (u p : Option (List Nat)) :
    alLookup (on_connect st c cid cs wt wm wr props u p).state.sessions cid =
      some (on_connect st c cid cs wt wm wr props u p).sid := by
  unfold on_connect
  have hb := get_session_sessions_lookup st cid cs
  rcases h39 : alLookup props 39 with _ | v
  · rcases h17 : alLookup props 17 with _ | w
    · simpa [updateSession] using hb
    · rcases w with n | b <;> simpa [updateSession] using hb
  · rcases v with n | b <;>
      rcases h17 : alLookup props 17 with _ | w <;>
      first
        | simpa [updateSession] using hb
        | (rcases w with m | b2 <;> simpa [updateSession] using hb)

/-- The reason computed by `on_connect`: the user-name/password check runs
after the authentication-method check and overwrites its reason. -/
theorem on_connect_reason_eq (st : BrokerState) (c : Nat) (cid : String)
    (cs : Bool) (wt : Option String) (wm : Option (List Nat)) (wr : Option Bool)
    (props : List (Nat × PropValue)) (u p : Option (List Nat)) :
    (on_connect st c cid cs wt wm wr props u p).reason =
      if u.isSome || p.isSome then 134
      else if (alLookup props 21).isSome then 140 else 0 := rfl

theorem on_connect_sid_eq (st : BrokerState) (c : Nat) (cid : String)
    (cs : Bool) (wt : Option String) (wm : Option (List Nat)) (wr : Option Bool)
    (props : List (Nat × PropValue)) (u p : Option (List Nat)) :
    (on_connect st c cid cs wt wm wr props u p).sid = (get_session st cid cs).2.1 := rfl

/-- Session fields adopted by `on_connect`, read back from the returned
state. -/
theorem on_connect_session_fields (st : BrokerState) (c : Nat) (cid : String)
    (cs : Bool) (wt : Option String) (wm : Option (List Nat)) (wr : Option Bool)
    (props : List (Nat × PropValue)) (u p : Option (List Nat)) :
    ((on_connect st c cid cs wt wm wr props u p).state.data
        (on_connect st c cid cs wt wm wr props u p).sid).will_topic = wt ∧
    ((on_connect st c cid cs wt wm wr props u p).state.data
        (on_connect st c cid cs wt wm wr props u p).sid).will_message = wm ∧
    ((on_connect st c cid cs wt wm wr props u p).state.data
        (on_connect st c cid cs wt wm wr props u p).sid).will_retain = wr ∧
    ((on_connect st c cid cs wt wm wr props u p).state.data
        (on_connect st c cid cs wt wm wr props u p).sid).client = some c ∧
    (∀ n, alLookup props 39 = some (.num n) →
      ((on_connect st c cid cs wt wm wr props u p).state.data
        (on_connect st c cid cs wt wm wr props u p).sid).maximum_packet_size = n) ∧
    (∀ n, alLookup props 17 = some (.num n) →
      ((on_connect st c cid cs wt wm wr props u p).state.data
        (on_connect st c cid cs wt wm wr props u p).sid).expiry_interval = n) := by
  unfold on_connect
  rcases h39 : alLookup props 39 with _ | v
  · rcases h17 : alLookup props 17 with _ | w
    · simp [updateSession]
    · rcases w with m | b2 <;> simp [updateSession]
  · rcases v with n | b
    · rcases h17 : alLookup props 17 with _ | w
      · simp [updateSession]
      · rcases w with m | b2 <;> simp [updateSession]
    · rcases h17 : alLookup props 17 with _ | w
      · simp [updateSession]
      · rcases w with m | b2 <;> simp [updateSession]

/-! ## Claim C8: CONNACK reason determination -/

/-- C8 counterexample: a CONNECT carrying both an AuthenticationMethod
property and a user name is answered with reason 134 (0x86), not the 140
(0x8C) the claim requires: the user-name/password assignment runs after
the authentication-method assignment in `on_connect` and overwrites it. -/
theorem connack_reason_counterexample :
    (on_connect initialBroker 1 "c" true none none none
      [(21, PropValue.bytes [109])] (some [117]) none).reason = 134 ∧
    (on_connect initialBroker 1 "c" true none none none
      [(21, PropValue.bytes [109])] (some [117]) none).reason ≠ 140 := by
  exact ⟨rfl, by decide⟩

/-- C8 as amended: the CONNACK reason is 0x86 (134) whenever a user name
or password is supplied — including when an AuthenticationMethod property
is also present, since that check runs first and is overwritten — else
0x8C (140) when an AuthenticationMethod property is present, else 0x00. -/
theorem connack_reason_determination (st : BrokerState) (c : Nat) (cid : String)
    (cs : Bool) (wt : Option String) (wm : Option (List Nat)) (wr : Option Bool)
    (props : List (Nat × PropValue)) (u p : Option (List Nat)) :
    (on_connect st c cid cs wt wm wr props u p).reason =
      if u.isSome || p.isSome then 134
      else if (alLookup props 21).isSome then 140 else 0 :=
  on_connect_reason_eq st c cid cs wt wm wr props u p

/-! ## Claim C5: session takeover -/

/-- C5 counterexample: after connection 1 binds client id "c", a second
CONNECT (clean-start false) observes `session_present = true` while the
shared session's `client` pointer still holds connection 1 — it has NOT
been cleared before the second connection observes `session_present`, and
nothing in this path displaces the first connection. -/
theorem session_takeover_counterexample :
    (get_session (on_connect initialBroker 1 "c" true none none none [] none none).state
        "c" false).2.2 = true ∧
    ((get_session (on_connect initialBroker 1 "c" true none none none [] none none).state
        "c" false).1.data
      (get_session (on_connect initialBroker 1 "c" true none none none [] none none).state
        "c" false).2.1).client = some 1 := by
  exact ⟨by decide, by decide⟩

/-- C5 as amended: on a second CONNECT with the same client id
(clean-start false), `session_present` is computed while `session.client`
is still bound to the first connection; `on_connect` then rebinds
`session.client` to the new connection.  The first connection is not
displaced by this path (its handler only clears the shared pointer when
its own connection later closes). -/
theorem session_takeover_amended (st : BrokerState) (c2 : Nat) (cid : String)
    (sid c1 : Nat) (wt : Option String) (wm : Option (List Nat)) (wr : Option Bool)
    (props : List (Nat × PropValue)) (u p : Option (List Nat))
    (hlook : alLookup st.sessions cid = some sid)
    (hclient : (st.data sid).client = some c1) :
    (get_session st cid false).2.2 = true ∧
    ((get_session st cid false).1.data (get_session st cid false).2.1).client = some c1 ∧
    (on_connect st c2 cid false wt wm wr props u p).sid = sid ∧
    ((on_connect st c2 cid false wt wm wr props u p).state.data sid).client = some c2 := by
  have hg : get_session st cid false = (st, sid, true) := by
    unfold get_session
    rw [hlook]
    simp
  have hsid : (on_connect st c2 cid false wt wm wr props u p).sid = sid := by
    rw [on_connect_sid_eq, hg]
  obtain ⟨-, -, -, hcl, -, -⟩ :=
    on_connect_session_fields st c2 cid false wt wm wr props u p
  refine ⟨by rw [hg], by rw [hg]; exact hclient, hsid, ?_⟩
  rw [← hsid]
  exact hcl

/-- Witness for the amended takeover statement: the state reached by one
CONNECT from connection 1, then a second CONNECT from connection 2. -/
theorem session_takeover_amended_witness :
    (alLookup (on_connect initialBroker 1 "c" true none none none
        [] none none).state.sessions "c" = some 0 ∧
     ((on_connect initialBroker 1 "c" true none none none
        [] none none).state.data 0).client = some 1) ∧
    ((get_session (on_connect initialBroker 1 "c" true none none none
        [] none none).state "c" false).2.2 = true ∧
     ((get_session (on_connect initialBroker 1 "c" true none none none
        [] none none).state "c" false).1.data
       (get_session (on_connect initialBroker 1 "c" true none none none
        [] none none).state "c" false).2.1).client = some 1 ∧
     (on_connect (on_connect initialBroker 1 "c" true none none none
        [] none none).state 2 "c" false none none none [] none none).sid = 0 ∧
     ((on_connect (on_connect initialBroker 1 "c" true none none none
        [] none none).state 2 "c" false none none none [] none none).state.data 0).client =
       some 2) :=
  ⟨⟨by decide, by decide⟩,
   session_takeover_amended (on_connect initialBroker 1 "c" true none none none
      [] none none).state 2 "c" 0 1 none none none [] none none
     (by decide) (by decide)⟩

/-! ## Claim C3: empty-payload retained publish -/

/-- C3 counterexample: in a reachable state where topic a/b has a retained
entry and session 1 (client id "sub", bound to connection 2) is a live
literal subscriber to a/b, processing a PUBLISH on a/b with retain set and
empty payload removes the retained entry but IS delivered to that live
matching subscriber (delivery list [1]), contradicting the claim that it
is not delivered to any live subscriber whose filter matches the topic. -/
theorem retain_empty_delivered_counterexample :
    (let st := applyOps [.connect 1 "pub" true none none none [] none none,
        .pub "a/b" [97] true,
        .connect 2 "sub" true none none none [] none none,
        .subscribe "sub" ["a/b"]]
     alLookup st.retained_messages "a/b" = some [97] ∧
     (st.data 1).client = some 2 ∧
     "a/b" ∈ (st.data 1).subscriptions ∧
     (on_publish st "a/b" [] true).map
        (fun r => (alLookup r.1.retained_messages "a/b", r.2)) = some (none, [1])) := by
  decide

/-- C3 as amended: a PUBLISH with retain set and empty payload on a
non-wildcard topic removes the retained entry for the topic (a later
subscriber finds no retained message), but the empty-payload publish is
still forwarded to the live subscribers whose filters match the topic
(`Broker.publish` runs unconditionally after the retained-store update). -/
theorem on_publish_retain_empty (st : BrokerState) (t : String)
    (hw : is_wildcards_in_topic t = false)
    (hnd : (st.retained_messages.map Prod.fst).Nodup) :
    on_publish st t [] true =
      some (remove_retained_message st t, publish (remove_retained_message st t) t) ∧
    alLookup (remove_retained_message st t).retained_messages t = none ∧
    find_retained_message (remove_retained_message st t) t = none := by
  have he : alLookup (dictErase st.retained_messages t) t = none :=
    alLookup_dictErase_self st.retained_messages t hnd
  refine ⟨?_, he, ?_⟩
  · unfold on_publish
    rw [hw]
    simp
  · simp [find_retained_message, remove_retained_message, he]

/-- Witness for the amended empty-retain statement, at the counterexample
state. -/
theorem on_publish_retain_empty_witness :
    (is_wildcards_in_topic "a/b" = false ∧
     ((applyOps [.connect 1 "pub" true none none none [] none none,
        .pub "a/b" [97] true,
        .connect 2 "sub" true none none none [] none none,
        .subscribe "sub" ["a/b"]]).retained_messages.map Prod.fst).Nodup) ∧
    (on_publish (applyOps [.connect 1 "pub" true none none none [] none none,
        .pub "a/b" [97] true,
        .connect 2 "sub" true none none none [] none none,
        .subscribe "sub" ["a/b"]]) "a/b" [] true =
      some (remove_retained_message (applyOps [.connect 1 "pub" true none none none [] none none,
        .pub "a/b" [97] true,
        .connect 2 "sub" true none none none [] none none,
        .subscribe "sub" ["a/b"]]) "a/b",
        publish (remove_retained_message (applyOps [.connect 1 "pub" true none none none [] none none,
          .pub "a/b" [97] true,
          .connect 2 "sub" true none none none [] none none,
          .subscribe "sub" ["a/b"]]) "a/b") "a/b") ∧
     alLookup (remove_retained_message (applyOps [.connect 1 "pub" true none none none [] none none,
        .pub "a/b" [97] true,
        .connect 2 "sub" true none none none [] none none,
        .subscribe "sub" ["a/b"]]) "a/b").retained_messages "a/b" = none ∧
     find_retained_message (remove_retained_message (applyOps [.connect 1 "pub" true none none none [] none none,
        .pub "a/b" [97] true,
        .connect 2 "sub" true none none none [] none none,
        .subscribe "sub" ["a/b"]]) "a/b") "a/b" = none) :=
  ⟨⟨by decide, by decide⟩,
   on_publish_retain_empty (applyOps [.connect 1 "pub" true none none none [] none none,
      .pub "a/b" [97] true,
      .connect 2 "sub" true none none none [] none none,
      .subscribe "sub" ["a/b"]]) "a/b" (by decide) (by decide)⟩

/-! ## Claim C10: rejected CONNECT is not side-effect free -/

/-- Outcome of one `Client.serve_forever` run whose connection receives a
single CONNECT and then closes (either because `on_connect` raised
ConnectError after writing the failure CONNACK, or because the socket
closed); both paths leave `_disconnect_reason` at its initial
UNSPECIFIED_ERROR = 128 and run the cleanup block. -/
structure ServeResult where
  after_connect : BrokerState
  sid : Nat
  session_present : Bool
  reason : Nat
  disconnect_reason : Nat
  will_published : Bool
  will_deliveries : List Nat
  final : BrokerState

/-- broker.py `Client.serve_forever`, specialised to a connection whose
only packet is the CONNECT: `on_connect` runs (creating or reusing the
session and adopting the will and properties), the CONNACK is written, and
on ConnectError or connection loss the cleanup block runs: detach
`session.client`; as the disconnect is not a normal disconnection, publish
the will (and retain it if `will_retain`); drop the session from the
registry when its expiry interval is 0. -/
def serve_connect_then_close (st : BrokerState) (connId : Nat) (client_id : String)
    (clean_start : Bool) (will_topic : Option String)
    (will_message : Option (List Nat)) (will_retain : Option Bool)
    (properties : List (Nat × PropValue))
    (user_name password : Option (List Nat)) : ServeResult :=
  let r := on_connect st connId client_id clean_start will_topic will_message
    will_retain properties user_name password
  let dr : Nat := 128
  let st1 := updateSession r.state r.sid (fun s => { s with client := none })
  let sess := st1.data r.sid
  let pair : List Nat × BrokerState :=
    match sess.will_topic with
    | some wt =>
      if dr ≠ 0 then
        (publish st1 wt,
         if sess.will_retain = some true then
           add_retained_message st1 wt (sess.will_message.getD [])
         else st1)
      else ([], st1)
    | none => ([], st1)
  let st3 := if (pair.2.data r.sid).expiry_interval = 0 then
      { pair.2 with sessions := dictErase pair.2.sessions client_id }
    else pair.2
  { after_connect := r.state
    sid := r.sid
    session_present := r.session_present
    reason := r.reason
    disconnect_reason := dr
    will_published := sess.will_topic.isSome && (dr != 0)
    will_deliveries := pair.1
    final := st3 }

/-- C10: a CONNECT the broker rejects (reason 0x86 or 0x8C) is not
side-effect free.  The session was already created or reused in the
registry with the CONNECT's will, maximum-packet-size and
expiry-interval adopted; the connection's disconnect reason is never set
to normal-disconnection on this path (it stays UNSPECIFIED_ERROR = 128);
and if the rejected CONNECT supplied a will topic, the broker publishes
that will message to the then-matching live subscribers when the
connection closes. -/
theorem rejected_connect_side_effects (st : BrokerState) (connId : Nat) (cid : String)
    (cs : Bool) (wt : Option String) (wm : Option (List Nat)) (wr : Option Bool)
    (props : List (Nat × PropValue)) (u p : Option (List Nat))
    (hrej : ((u.isSome || p.isSome) || (alLookup props 21).isSome) = true) :
    ((serve_connect_then_close st connId cid cs wt wm wr props u p).reason = 134 ∨
     (serve_connect_then_close st connId cid cs wt wm wr props u p).reason = 140) ∧
    (serve_connect_then_close st connId cid cs wt wm wr props u p).disconnect_reason = 128 ∧
    (serve_connect_then_close st connId cid cs wt wm wr props u p).disconnect_reason ≠ 0 ∧
    alLookup (serve_connect_then_close st connId cid cs wt wm wr props
        u p).after_connect.sessions cid =
      some (serve_connect_then_close st connId cid cs wt wm wr props u p).sid ∧
    ((serve_connect_then_close st connId cid cs wt wm wr props u p).after_connect.data
       (serve_connect_then_close st connId cid cs wt wm wr props u p).sid).will_topic = wt ∧
    ((serve_connect_then_close st connId cid cs wt wm wr props u p).after_connect.data
       (serve_connect_then_close st connId cid cs wt wm wr props u p).sid).will_message = wm ∧
    (∀ n, alLookup props 39 = some (.num n) →
      ((serve_connect_then_close st connId cid cs wt wm wr props u p).after_connect.data
        (serve_connect_then_close st connId cid cs wt wm wr props
          u p).sid).maximum_packet_size = n) ∧
    (∀ n, alLookup props 17 = some (.num n) →
      ((serve_connect_then_close st connId cid cs wt wm wr props u p).after_connect.data
        (serve_connect_then_close st connId cid cs wt wm wr props
          u p).sid).expiry_interval = n) ∧
    (∀ t, wt = some t →
      (serve_connect_then_close st connId cid cs wt wm wr props u p).will_published = true ∧
      (serve_connect_then_close st connId cid cs wt wm wr props u p).will_deliveries =
        publish (updateSession
          (serve_connect_then_close st connId cid cs wt wm wr props u p).after_connect
          (serve_connect_then_close st connId cid cs wt wm wr props u p).sid
          (fun s => { s with client := none })) t) := by
  obtain ⟨hwt2, hwm2, hwr2, hclient2, hmps, hexp⟩ :=
    on_connect_session_fields st connId cid cs wt wm wr props u p
  refine ⟨?_, rfl, (by norm_num : (128 : Nat) ≠ 0), ?_, hwt2, hwm2, hmps, hexp, ?_⟩
  · show (on_connect st connId cid cs wt wm wr props u p).reason = 134 ∨
        (on_connect st connId cid cs wt wm wr props u p).reason = 140
    rw [on_connect_reason_eq]
    by_cases hup : (u.isSome || p.isSome) = true
    · left
      rw [if_pos hup]
    · right
      have hb : (u.isSome || p.isSome) = false := by
        cases h2 : (u.isSome || p.isSome) with
        | false => rfl
        | true => exact absurd h2 hup
      have h21 : (alLookup props 21).isSome = true := by
        rw [hb, Bool.false_or] at hrej
        exact hrej
      rw [if_neg hup, if_pos h21]
  · exact on_connect_sessions_lookup st connId cid cs wt wm wr props u p
  · intro t ht
    subst ht
    have hsess : ((updateSession (on_connect st connId cid cs (some t) wm wr props
        u p).state (on_connect st connId cid cs (some t) wm wr props u p).sid
        (fun s => { s with client := none })).data
       (on_connect st connId cid cs (some t) wm wr props u p).sid).will_topic = some t := by
      rw [updateSession_data_self]
      simpa using hwt2
    constructor
    · unfold serve_connect_then_close
      simp [hsess]
    · unfold serve_connect_then_close
      simp [hsess]

/-- Witness for the rejected-CONNECT claim: a fresh broker, connection 1,
client id "c", will topic "foo", maximum-packet-size 50 and expiry 7 in
the properties, and a user name (so the CONNACK reason is 0x86). -/
theorem rejected_connect_side_effects_witness :
    (((some [117] : Option (List Nat)).isSome || (none : Option (List Nat)).isSome ||
      (alLookup [(39, PropValue.num 50), (17, PropValue.num 7)] 21).isSome) = true ∧
     True) ∧
    (((serve_connect_then_close initialBroker 1 "c" true (some "foo") (some [98])
        (some true) [(39, PropValue.num 50), (17, PropValue.num 7)]
        (some [117]) none).reason = 134 ∨
      (serve_connect_then_close initialBroker 1 "c" true (some "foo") (some [98])
        (some true) [(39, PropValue.num 50), (17, PropValue.num 7)]
        (some [117]) none).reason = 140) ∧
     (serve_connect_then_close initialBroker 1 "c" true (some "foo") (some [98])
        (some true) [(39, PropValue.num 50), (17, PropValue.num 7)]
        (some [117]) none).disconnect_reason = 128 ∧
     (serve_connect_then_close initialBroker 1 "c" true (some "foo") (some [98])
        (some true) [(39, PropValue.num 50), (17, PropValue.num 7)]
        (some [117]) none).disconnect_reason ≠ 0 ∧
     alLookup (serve_connect_then_close initialBroker 1 "c" true (some "foo") (some [98])
        (some true) [(39, PropValue.num 50), (17, PropValue.num 7)]
        (some [117]) none).after_connect.sessions "c" =
       some (serve_connect_then_close initialBroker 1 "c" true (some "foo") (some [98])
        (some true) [(39, PropValue.num 50), (17, PropValue.num 7)]
        (some [117]) none).sid ∧
     ((serve_connect_then_close initialBroker 1 "c" true (some "foo") (some [98])
        (some true) [(39, PropValue.num 50), (17, PropValue.num 7)]
        (some [117]) none).after_connect.data
       (serve_connect_then_close initialBroker 1 "c" true (some "foo") (some [98])
        (some true) [(39, PropValue.num 50), (17, PropValue.num 7)]
        (some [117]) none).sid).will_topic = some "foo" ∧
     ((serve_connect_then_close initialBroker 1 "c" true (some "foo") (some [98])
        (some true) [(39, PropValue.num 50), (17, PropValue.num 7)]
        (some [117]) none).after_connect.data
       (serve_connect_then_close initialBroker 1 "c" true (some "foo") (some [98])
        (some true) [(39, PropValue.num 50), (17, PropValue.num 7)]
        (some [117]) none).sid).will_message = some [98] ∧
     (∀ n, alLookup [(39, PropValue.num 50), (17, PropValue.num 7)] 39 =
        some (.num n) →
       ((serve_connect_then_close initialBroker 1 "c" true (some "foo") (some [98])
        (some true) [(39, PropValue.num 50), (17, PropValue.num 7)]
        (some [117]) none).after_connect.data
        (serve_connect_then_close initialBroker 1 "c" true (some "foo") (some [98])
        (some true) [(39, PropValue.num 50), (17, PropValue.num 7)]
        (some [117]) none).sid).maximum_packet_size = n) ∧
     (∀ n, alLookup [(39, PropValue.num 50), (17, PropValue.num 7)] 17 =
        some (.num n) →
       ((serve_connect_then_close initialBroker 1 "c" true (some "foo") (some [98])
        (some true) [(39, PropValue.num 50), (17, PropValue.num 7)]
        (some [117]) none).after_connect.data
        (serve_connect_then_close initialBroker 1 "c" true (some "foo") (some [98])
        (some true) [(39, PropValue.num 50), (17, PropValue.num 7)]
        (some [117]) none).sid).expiry_interval = n) ∧
     (∀ t, (some "foo" : Option String) = some t →
       (serve_connect_then_close initialBroker 1 "c" true (some "foo") (some [98])
        (some true) [(39, PropValue.num 50), (17, PropValue.num 7)]
        (some [117]) none).will_published = true ∧
       (serve_connect_then_close initialBroker 1 "c" true (some "foo") (some [98])
        (some true) [(39, PropValue.num 50), (17, PropValue.num 7)]
        (some [117]) none).will_deliveries =
         publish (updateSession
           (serve_connect_then_close initialBroker 1 "c" true (some "foo") (some [98])
            (some true) [(39, PropValue.num 50), (17, PropValue.num 7)]
            (some [117]) none).after_connect
           (serve_connect_then_close initialBroker 1 "c" true (some "foo") (some [98])
            (some true) [(39, PropValue.num 50), (17, PropValue.num 7)]
            (some [117]) none).sid
           (fun s => { s with client := none })) t)) :=
  ⟨⟨by decide, trivial⟩,
   rejected_connect_side_effects initialBroker 1 "c" true (some "foo") (some [98])
     (some true) [(39, PropValue.num 50), (17, PropValue.num 7)]
     (some [117]) none (by decide)⟩

/-! ## Claim C9: client packet-identifier allocator (client.py) -/

/-- client.py `Client.connect` sets `self._next_packet_identifier = 1`. -/
def initial_packet_identifier : Nat := 1

/-- client.py `Client.alloc_packet_identifier`: take the current counter as
the identifier, raising (`none`) if a transaction is pending under it;
otherwise advance the counter, wrapping 65536 back to 1, and hand the
identifier out.  `transactions` is the key set of the pending-transaction
table. -/
def alloc_packet_identifier (next : Nat) (transactions : List Nat) :
    Option (Nat × Nat) :=
  if next ∈ transactions then none
  else
    let advanced := next + 1
    some (next, if advanced = 65536 then 1 else advanced)

/-- C9: the allocator starts at 1; on success it returns the current
counter (which is not in the pending-transaction table - when it is, the
allocator raises instead of reusing it) and advances by 1, wrapping from
65535 back to 1; starting in 1..65535 it stays in 1..65535, so it never
yields 0 or values above 65535. -/
theorem alloc_packet_identifier_props (next : Nat) (transactions : List Nat)
    (hlo : 1 ≤ next) (hhi : next ≤ 65535) :
    initial_packet_identifier = 1 ∧
    (next ∈ transactions → alloc_packet_identifier next transactions = none) ∧
    (next ∉ transactions →
      alloc_packet_identifier next transactions =
        some (next, if next = 65535 then 1 else next + 1) ∧
      1 ≤ next ∧ next ≤ 65535 ∧
      1 ≤ (if next = 65535 then 1 else next + 1) ∧
      (if next = 65535 then 1 else next + 1) ≤ 65535) := by
  refine ⟨rfl, ?_, ?_⟩
  · intro hmem
    simp [alloc_packet_identifier, hmem]
  · intro hmem
    refine ⟨?_, hlo, hhi, ?_, ?_⟩
    · unfold alloc_packet_identifier
      rw [if_neg hmem]
      by_cases h : next = 65535
      · subst h
        norm_num
      · show some (next, if next + 1 = 65536 then 1 else next + 1) =
            some (next, if next = 65535 then 1 else next + 1)
        rw [if_neg h, if_neg (show ¬(next + 1 = 65536) by omega)]
    · split_ifs <;> omega
    · split_ifs <;> omega

/-- Witness for the allocator at the wrap point, with one pending
transaction under identifier 3. -/
theorem alloc_packet_identifier_props_witness :
    (1 ≤ 65535 ∧ 65535 ≤ 65535) ∧
    (initial_packet_identifier = 1 ∧
     (65535 ∈ [3] → alloc_packet_identifier 65535 [3] = none) ∧
     (65535 ∉ [3] →
       alloc_packet_identifier 65535 [3] =
         some (65535, if 65535 = 65535 then 1 else 65535 + 1) ∧
       1 ≤ 65535 ∧ 65535 ≤ 65535 ∧
       1 ≤ (if 65535 = 65535 then 1 else 65535 + 1) ∧
       (if 65535 = 65535 then 1 else 65535 + 1) ≤ 65535)) :=
  ⟨⟨by decide, by decide⟩,
   alloc_packet_identifier_props 65535 [3] (by decide) (by decide)⟩

/-! ## Consistency invariant of the two subscription views (C6) -/

/-- Invariant tying the broker's subscription index to the per-session
sets, plus the bookkeeping facts that make it inductive: all lists are
duplicate-free, registered sessions have allocated identities, and
unallocated identities are untouched session objects. -/
structure Inv (st : BrokerState) : Prop where
  lit_iff : ∀ t s, s ∈ st.subscribers t ↔ t ∈ (st.data s).subscriptions
  wild_iff : ∀ t s, (t, s) ∈ st.wildcard_subscribers ↔
    t ∈ (st.data s).wildcard_subscriptions
  lit_nodup : ∀ t, (st.subscribers t).Nodup
  wild_nodup : st.wildcard_subscribers.Nodup
  sub_nodup : ∀ s, (st.data s).subscriptions.Nodup
  wsub_nodup : ∀ s, (st.data s).wildcard_subscriptions.Nodup
  reg_lt : ∀ cid sid, alLookup st.sessions cid = some sid → sid < st.nextId
  fresh_empty : ∀ s, st.nextId ≤ s → st.data s = newSession

theorem inv_initial : Inv initialBroker := by
  constructor <;> simp [initialBroker, alLookup, newSession]

/-- Session-object updates that do not touch the two subscription sets
preserve the invariant, provided the session identity is allocated. -/
theorem updateSession_inv (st : BrokerState) (sid : Nat) (f : SessionData → SessionData)
    (inv : Inv st) (hsid : sid < st.nextId)
    (hsub : ∀ s, (f s).subscriptions = s.subscriptions)
    (hwsub : ∀ s, (f s).wildcard_subscriptions = s.wildcard_subscriptions) :
    Inv (updateSession st sid f) := by
  constructor
  · intro t s
    unfold updateSession
    simp only
    by_cases h : s = sid <;> simp [h, hsub, inv.lit_iff t s, inv.lit_iff t sid]
  · intro t s
    unfold updateSession
    simp only
    by_cases h : s = sid <;> simp [h, hwsub, inv.wild_iff t s, inv.wild_iff t sid]
  · exact inv.lit_nodup
  · exact inv.wild_nodup
  · intro s
    unfold updateSession
    simp only
    by_cases h : s = sid <;> simp [h, hsub, inv.sub_nodup s, inv.sub_nodup sid]
  · intro s
    unfold updateSession
    simp only
    by_cases h : s = sid <;> simp [h, hwsub, inv.wsub_nodup s, inv.wsub_nodup sid]
  · exact inv.reg_lt
  · intro s hge
    unfold updateSession
    simp only
    have hge2 : st.nextId ≤ s := hge
    have hne : s ≠ sid := by omega
    simp [hne, inv.fresh_empty s hge2]

/-- The retained store is invisible to the invariant. -/
theorem add_retained_message_inv (st : BrokerState) (t : String) (m : List Nat)
    (inv : Inv st) : Inv (add_retained_message st t m) := by
  cases inv
  constructor <;> assumption

theorem remove_retained_message_inv (st : BrokerState) (t : String)
    (inv : Inv st) : Inv (remove_retained_message st t) := by
  cases inv
  constructor <;> assumption

/-! ### Folds of subscription removals (clean start) -/

theorem foldl_remove_subscriber_parts (l : List String) (st : BrokerState) (sid : Nat) :
    (l.foldl (fun s2 tp => remove_subscriber s2 tp sid) st).data = st.data ∧
    (l.foldl (fun s2 tp => remove_subscriber s2 tp sid) st).sessions = st.sessions ∧
    (l.foldl (fun s2 tp => remove_subscriber s2 tp sid) st).wildcard_subscribers =
      st.wildcard_subscribers ∧
    (l.foldl (fun s2 tp => remove_subscriber s2 tp sid) st).nextId = st.nextId := by
  induction l generalizing st with
  | nil => exact ⟨rfl, rfl, rfl, rfl⟩
  | cons x xs ih =>
    rw [List.foldl_cons]
    exact ih (remove_subscriber st x sid)

theorem foldl_remove_wildcard_parts (l : List String) (st : BrokerState) (sid : Nat) :
    (l.foldl (fun s2 tp => remove_wildcard_subscriber s2 tp sid) st).data = st.data ∧
    (l.foldl (fun s2 tp => remove_wildcard_subscriber s2 tp sid) st).sessions = st.sessions ∧
    (∀ t, (l.foldl (fun s2 tp => remove_wildcard_subscriber s2 tp sid) st).subscribers t =
      st.subscribers t) ∧
    (l.foldl (fun s2 tp => remove_wildcard_subscriber s2 tp sid) st).nextId = st.nextId := by
  induction l generalizing st with
  | nil => exact ⟨rfl, rfl, fun _ => rfl, rfl⟩
  | cons x xs ih =>
    rw [List.foldl_cons]
    exact ih (remove_wildcard_subscriber st x sid)

theorem foldl_remove_subscriber_nodup (l : List String) (st : BrokerState) (sid : Nat)
    (hnd : ∀ t, (st.subscribers t).Nodup) (t : String) :
    ((l.foldl (fun s2 tp => remove_subscriber s2 tp sid) st).subscribers t).Nodup := by
  induction l generalizing st with
  | nil => exact hnd t
  | cons x xs ih =>
    rw [List.foldl_cons]
    apply ih
    intro t2
    unfold remove_subscriber
    simp only
    by_cases h : t2 = x <;> simp [h, hnd t2, (hnd x).erase]

theorem foldl_remove_subscriber_mem (l : List String) (st : BrokerState) (sid : Nat)
    (hnd : ∀ t, (st.subscribers t).Nodup) (t : String) (s : Nat) :
    (s ∈ (l.foldl (fun s2 tp => remove_subscriber s2 tp sid) st).subscribers t ↔
      (s ∈ st.subscribers t ∧ ¬(s = sid ∧ t ∈ l))) := by
  induction l generalizing st with
  | nil => simp
  | cons x xs ih =>
    rw [List.foldl_cons]
    rw [ih (remove_subscriber st x sid)
      (by
        intro t2
        unfold remove_subscriber
        simp only
        by_cases h : t2 = x <;> simp [h, hnd t2, (hnd x).erase])]
    unfold remove_subscriber
    simp only
    by_cases h : t = x
    · subst h
      rw [if_pos rfl]
      rw [(hnd t).mem_erase_iff]
      constructor
      · rintro ⟨⟨hne, hmem⟩, hrest⟩
        exact ⟨hmem, by
          rintro ⟨rfl, _⟩
          exact hne rfl⟩
      · rintro ⟨hmem, hno⟩
        refine ⟨⟨?_, hmem⟩, ?_⟩
        · intro he
          exact hno ⟨he, by simp⟩
        · rintro ⟨rfl, hx⟩
          exact hno ⟨rfl, by simp⟩
    · rw [if_neg h]
      constructor
      · rintro ⟨hmem, hno⟩
        exact ⟨hmem, by
          rintro ⟨rfl, hmem2⟩
          rcases List.mem_cons.mp hmem2 with h2 | h2
          · exact h h2
          · exact hno ⟨rfl, h2⟩⟩
      · rintro ⟨hmem, hno⟩
        exact ⟨hmem, by
          rintro ⟨rfl, hx⟩
          exact hno ⟨rfl, List.mem_cons_of_mem _ hx⟩⟩

theorem foldl_remove_wildcard_nodup (l : List String) (st : BrokerState) (sid : Nat)
    (hnd : st.wildcard_subscribers.Nodup) :
    ((l.foldl (fun s2 tp => remove_wildcard_subscriber s2 tp sid)
      st).wildcard_subscribers).Nodup := by
  induction l generalizing st with
  | nil => exact hnd
  | cons x xs ih =>
    rw [List.foldl_cons]
    exact ih _ (hnd.erase _)

theorem foldl_remove_wildcard_mem (l : List String) (st : BrokerState) (sid : Nat)
    (hnd : st.wildcard_subscribers.Nodup) (t : String) (s : Nat) :
    ((t, s) ∈ (l.foldl (fun s2 tp => remove_wildcard_subscriber s2 tp sid)
        st).wildcard_subscribers ↔
      ((t, s) ∈ st.wildcard_subscribers ∧ ¬(s = sid ∧ t ∈ l))) := by
  induction l generalizing st with
  | nil => simp
  | cons x xs ih =>
    rw [List.foldl_cons]
    rw [ih (remove_wildcard_subscriber st x sid) (hnd.erase _)]
    unfold remove_wildcard_subscriber
    simp only
    rw [hnd.mem_erase_iff]
    constructor
    · rintro ⟨⟨hne, hmem⟩, hrest⟩
      refine ⟨hmem, ?_⟩
      rintro ⟨rfl, hmem2⟩
      rcases List.mem_cons.mp hmem2 with h2 | h2
      · exact hne (by rw [h2])
      · exact hrest ⟨rfl, h2⟩
    · rintro ⟨hmem, hno⟩
      refine ⟨⟨?_, hmem⟩, ?_⟩
      · intro he
        apply hno
        rw [Prod.mk.injEq] at he
        exact ⟨he.2, by simp [he.1]⟩
      · rintro ⟨rfl, hx⟩
        exact hno ⟨rfl, List.mem_cons_of_mem _ hx⟩

theorem subscribeTopic_inv (st : BrokerState) (sid : Nat) (tp : String)
    (inv : Inv st) (hsid : sid < st.nextId) : Inv (subscribeTopic st sid tp) := by
  unfold subscribeTopic
  by_cases hw : is_wildcards_in_topic tp
  · rw [if_pos hw]
    by_cases hmem : tp ∈ (st.data sid).wildcard_subscriptions
    · rw [if_pos hmem]
      exact inv
    · rw [if_neg hmem]
      have hnotin : (tp, sid) ∉ st.wildcard_subscribers := fun h =>
        hmem ((inv.wild_iff tp sid).1 h)
      unfold add_wildcard_subscriber updateSession
      constructor
      · intro t s
        simp only
        by_cases h : s = sid <;>
          simp [h, inv.lit_iff t s, inv.lit_iff t sid]
      · intro t s
        simp only [List.mem_append, List.mem_singleton, Prod.mk.injEq]
        by_cases h : s = sid
        · subst h
          simp only [if_pos rfl]
          simp [inv.wild_iff t s, List.mem_append]
        · simp only [if_neg h]
          simp [inv.wild_iff t s]
          tauto
      · exact inv.lit_nodup
      · simp only
        rw [List.nodup_append]
        refine ⟨inv.wild_nodup, List.nodup_singleton _, ?_⟩
        intro p hp hp2
        simp only [List.mem_singleton] at hp2
        subst hp2
        exact hnotin hp
      · intro s
        simp only
        by_cases h : s = sid <;> simp [h, inv.sub_nodup s, inv.sub_nodup sid]
      · intro s
        simp only
        by_cases h : s = sid
        · subst h
          rw [if_pos rfl]
          show ((st.data s).wildcard_subscriptions ++ [tp]).Nodup
          rw [List.nodup_append]
          exact ⟨inv.wsub_nodup s, List.nodup_singleton _, by
            intro a ha ha2
            simp only [List.mem_singleton] at ha2
            subst ha2
            exact hmem ha⟩
        · simp [h, inv.wsub_nodup s]
      · exact inv.reg_lt
      · intro s hge
        have hge2 : st.nextId ≤ s := hge
        have hne : s ≠ sid := by omega
        simp only [if_neg hne]
        exact inv.fresh_empty s hge2
  · rw [if_neg hw]
    by_cases hmem : tp ∈ (st.data sid).subscriptions
    · rw [if_pos hmem]
      exact inv
    · rw [if_neg hmem]
      have hnotin : sid ∉ st.subscribers tp := fun h =>
        hmem ((inv.lit_iff tp sid).1 h)
      unfold add_subscriber updateSession
      constructor
      · intro t s
        simp only
        by_cases ht : t = tp
        · subst ht
          rw [if_pos rfl, if_neg hnotin]
          by_cases h : s = sid
          · subst h
            simp [List.mem_append]
          · simp only [if_neg h]
            simp [List.mem_append, inv.lit_iff t s, h]
        · rw [if_neg ht]
          by_cases h : s = sid
          · subst h
            simp [inv.lit_iff t s, ht]
          · simp [h, inv.lit_iff t s]
      · intro t s
        simp only
        by_cases h : s = sid <;>
          simp [h, inv.wild_iff t s, inv.wild_iff t sid]
      · intro t
        simp only
        by_cases ht : t = tp
        · subst ht
          rw [if_pos rfl, if_neg hnotin]
          rw [List.nodup_append]
          refine ⟨inv.lit_nodup t, List.nodup_singleton _, ?_⟩
          intro a ha ha2
          simp only [List.mem_singleton] at ha2
          subst ha2
          exact hnotin ha
        · rw [if_neg ht]
          exact inv.lit_nodup t
      · exact inv.wild_nodup
      · intro s
        simp only
        by_cases h : s = sid
        · subst h
          rw [if_pos rfl]
          show ((st.data s).subscriptions ++ [tp]).Nodup
          rw [List.nodup_append]
          exact ⟨inv.sub_nodup s, List.nodup_singleton _, by
            intro a ha ha2
            simp only [List.mem_singleton] at ha2
            subst ha2
            exact hmem ha⟩
        · simp [h, inv.sub_nodup s]
      · intro s
        simp only
        by_cases h : s = sid <;> simp [h, inv.wsub_nodup s, inv.wsub_nodup sid]
      · exact inv.reg_lt
      · intro s hge
        have hge2 : st.nextId ≤ s := hge
        have hne : s ≠ sid := by omega
        simp only [if_neg hne]
        exact inv.fresh_empty s hge2

theorem unsubscribeTopic_inv (st : BrokerState) (sid : Nat) (tp : String)
    (inv : Inv st) (hsid : sid < st.nextId) : Inv (unsubscribeTopic st sid tp) := by
  unfold unsubscribeTopic
  by_cases hw : is_wildcards_in_topic tp
  · rw [if_pos hw]
    by_cases hmem : tp ∈ (st.data sid).wildcard_subscriptions
    · rw [if_pos hmem]
      unfold remove_wildcard_subscriber updateSession
      constructor
      · intro t s
        simp only
        by_cases h : s = sid <;>
          simp [h, inv.lit_iff t s, inv.lit_iff t sid]
      · intro t s
        simp only
        rw [inv.wild_nodup.mem_erase_iff]
        by_cases h : s = sid
        · subst h
          rw [if_pos rfl]
          show _ ↔ t ∈ ((st.data s).wildcard_subscriptions).erase tp
          rw [(inv.wsub_nodup s).mem_erase_iff]
          rw [inv.wild_iff t s]
          simp only [ne_eq, Prod.mk.injEq, not_and]
          constructor
          · rintro ⟨hne, hmem2⟩
            exact ⟨fun he => hne he (by simp), hmem2⟩
          · rintro ⟨hne, hmem2⟩
            exact ⟨fun he _ => hne he, hmem2⟩
        · rw [if_neg h]
          rw [inv.wild_iff t s]
          simp only [ne_eq, Prod.mk.injEq, not_and]
          constructor
          · rintro ⟨_, hmem2⟩
            exact hmem2
          · intro hmem2
            exact ⟨fun _ he => absurd he h, hmem2⟩
      · exact inv.lit_nodup
      · exact inv.wild_nodup.erase _
      · intro s
        simp only
        by_cases h : s = sid <;> simp [h, inv.sub_nodup s, inv.sub_nodup sid]
      · intro s
        simp only
        by_cases h : s = sid
        · subst h
          rw [if_pos rfl]
          show (((st.data s).wildcard_subscriptions).erase tp).Nodup
          exact (inv.wsub_nodup s).erase _
        · rw [if_neg h]
          exact inv.wsub_nodup s
      · exact inv.reg_lt
      · intro s hge
        have hge2 : st.nextId ≤ s := hge
        have hne : s ≠ sid := by omega
        simp only [if_neg hne]
        exact inv.fresh_empty s hge2
    · rw [if_neg hmem]
      exact inv
  · rw [if_neg hw]
    by_cases hmem : tp ∈ (st.data sid).subscriptions
    · rw [if_pos hmem]
      unfold remove_subscriber updateSession
      constructor
      · intro t s
        simp only
        by_cases ht : t = tp
        · subst ht
          rw [if_pos rfl]
          rw [(inv.lit_nodup t).mem_erase_iff]
          by_cases h : s = sid
          · subst h
            rw [if_pos rfl]
            show _ ↔ t ∈ ((st.data s).subscriptions).erase t
            rw [(inv.sub_nodup s).mem_erase_iff]
            simp
          · rw [if_neg h]
            rw [inv.lit_iff t s]
            simp [h]
        · rw [if_neg ht]
          by_cases h : s = sid
          · subst h
            rw [if_pos rfl]
            show _ ↔ t ∈ ((st.data s).subscriptions).erase tp
            rw [(inv.sub_nodup s).mem_erase_iff]
            rw [inv.lit_iff t s]
            simp [ht]
          · rw [if_neg h]
            exact inv.lit_iff t s
      · intro t s
        simp only
        by_cases h : s = sid <;>
          simp [h, inv.wild_iff t s, inv.wild_iff t sid]
      · intro t
        simp only
        by_cases ht : t = tp
        · rw [if_pos ht]
          exact (inv.lit_nodup tp).erase _
        · rw [if_neg ht]
          exact inv.lit_nodup t
      · exact inv.wild_nodup
      · intro s
        simp only
        by_cases h : s = sid
        · subst h
          rw [if_pos rfl]
          show (((st.data s).subscriptions).erase tp).Nodup
          exact (inv.sub_nodup s).erase _
        · rw [if_neg h]
          exact inv.sub_nodup s
      · intro s
        simp only
        by_cases h : s = sid <;> simp [h, inv.wsub_nodup s, inv.wsub_nodup sid]
      · exact inv.reg_lt
      · intro s hge
        have hge2 : st.nextId ≤ s := hge
        have hne : s ≠ sid := by omega
        simp only [if_neg hne]
        exact inv.fresh_empty s hge2
    · rw [if_neg hmem]
      exact inv

theorem alLookup_cons {α β : Type} [DecidableEq α] (pk : α) (pv : β)
    (rest : List (α × β)) (key : α) :
    alLookup ((pk, pv) :: rest) key = if pk = key then some pv else alLookup rest key := rfl

theorem alLookup_append {α β : Type} [DecidableEq α] (l1 l2 : List (α × β)) (key : α) :
    alLookup (l1 ++ l2) key =
      match alLookup l1 key with
      | some v => some v
      | none => alLookup l2 key := by
  induction l1 with
  | nil => simp [alLookup]
  | cons p rest ih =>
    obtain ⟨pk, pv⟩ := p
    rw [List.cons_append, alLookup_cons, alLookup_cons]
    by_cases h : pk = key
    · rw [if_pos h, if_pos h]
    · rw [if_neg h, if_neg h, ih]

theorem updateSession_nextId (st : BrokerState) (sid : Nat)
    (f : SessionData → SessionData) :
    (updateSession st sid f).nextId = st.nextId := rfl

/-- Re-establishing the invariant after a clean start: if `st2` is `st`
with session `sid` removed from both broker-side subscription structures,
then resetting the session object restores the invariant. -/
theorem clean_state_inv (st st2 : BrokerState) (sid : Nat) (inv : Inv st)
    (hsid : sid < st.nextId)
    (hA : st2.data = st.data) (hB : st2.sessions = st.sessions)
    (hC : st2.nextId = st.nextId)
    (hDn : ∀ t, (st2.subscribers t).Nodup)
    (hE : ∀ t s, s ∈ st2.subscribers t ↔
      (s ∈ st.subscribers t ∧ ¬(s = sid ∧ t ∈ (st.data sid).subscriptions)))
    (hFn : st2.wildcard_subscribers.Nodup)
    (hF : ∀ t s, (t, s) ∈ st2.wildcard_subscribers ↔
      ((t, s) ∈ st.wildcard_subscribers ∧
        ¬(s = sid ∧ t ∈ (st.data sid).wildcard_subscriptions))) :
    Inv (updateSession st2 sid cleanSession) := by
  constructor
  · intro t s
    show s ∈ st2.subscribers t ↔ _
    rw [hE t s]
    unfold updateSession
    simp only
    by_cases h : s = sid
    · subst h
      rw [if_pos rfl]
      show _ ↔ t ∈ (cleanSession (st2.data s)).subscriptions
      simp only [cleanSession, newSession]
      simp [inv.lit_iff t s]
    · rw [if_neg h, hA]
      simp [h, inv.lit_iff t s]
  · intro t s
    show (t, s) ∈ st2.wildcard_subscribers ↔ _
    rw [hF t s]
    unfold updateSession
    simp only
    by_cases h : s = sid
    · subst h
      rw [if_pos rfl]
      show _ ↔ t ∈ (cleanSession (st2.data s)).wildcard_subscriptions
      simp only [cleanSession, newSession]
      simp [inv.wild_iff t s]
    · rw [if_neg h, hA]
      simp [h, inv.wild_iff t s]
  · exact hDn
  · exact hFn
  · intro s
    unfold updateSession
    simp only
    by_cases h : s = sid
    · subst h
      rw [if_pos rfl]
      show (cleanSession (st2.data s)).subscriptions.Nodup
      simp [cleanSession, newSession]
    · rw [if_neg h, hA]
      exact inv.sub_nodup s
  · intro s
    unfold updateSession
    simp only
    by_cases h : s = sid
    · subst h
      rw [if_pos rfl]
      show (cleanSession (st2.data s)).wildcard_subscriptions.Nodup
      simp [cleanSession, newSession]
    · rw [if_neg h, hA]
      exact inv.wsub_nodup s
  · intro cid2 sid2 h2
    have h3 : alLookup st2.sessions cid2 = some sid2 := h2
    rw [hB] at h3
    have hlt := inv.reg_lt cid2 sid2 h3
    show sid2 < st2.nextId
    rw [hC]
    exact hlt
  · intro s hge
    have hge2 : st.nextId ≤ s := by
      have hx : st2.nextId ≤ s := hge
      rw [hC] at hx
      exact hx
    have hne : s ≠ sid := by omega
    unfold updateSession
    simp only
    rw [if_neg hne, hA]
    exact inv.fresh_empty s hge2

theorem get_session_inv (st : BrokerState) (cid : String) (cs : Bool) (inv : Inv st) :
    Inv (get_session st cid cs).1 ∧
    (get_session st cid cs).2.1 < (get_session st cid cs).1.nextId := by
  unfold get_session
  match h : alLookup st.sessions cid with
  | some sid =>
    have hsid : sid < st.nextId := inv.reg_lt cid sid h
    by_cases hcs : cs
    · simp only [hcs, if_true]
      obtain ⟨hd1, hs1, hw1, hn1⟩ :=
        foldl_remove_subscriber_parts (st.data sid).subscriptions st sid
      obtain ⟨hd2, hs2, hsub2, hn2⟩ :=
        foldl_remove_wildcard_parts (st.data sid).wildcard_subscriptions
          (((st.data sid).subscriptions).foldl
            (fun s2 tp => remove_subscriber s2 tp sid) st) sid
      constructor
      · apply clean_state_inv st _ sid inv hsid
        · rw [hd2, hd1]
        · rw [hs2, hs1]
        · rw [hn2, hn1]
        · intro t
          rw [hsub2]
          exact foldl_remove_subscriber_nodup _ st sid inv.lit_nodup t
        · intro t s
          rw [hsub2]
          exact foldl_remove_subscriber_mem _ st sid inv.lit_nodup t s
        · apply foldl_remove_wildcard_nodup
          rw [hw1]
          exact inv.wild_nodup
        · intro t s
          rw [foldl_remove_wildcard_mem _ _ sid (by rw [hw1]; exact inv.wild_nodup) t s,
            hw1]
      · rw [updateSession_nextId, hn2, hn1]
        exact hsid
    · simp only [hcs, if_false]
      exact ⟨inv, hsid⟩
  | none =>
    have hdata : ∀ s : Nat, (if s = st.nextId then newSession else st.data s) = st.data s := by
      intro s
      by_cases hw2 : s = st.nextId
      · rw [if_pos hw2, hw2, inv.fresh_empty st.nextId (le_refl _)]
      · rw [if_neg hw2]
    constructor
    · constructor
      · intro t s
        show s ∈ st.subscribers t ↔
          t ∈ ((if s = st.nextId then newSession else st.data s)).subscriptions
        rw [hdata s]
        exact inv.lit_iff t s
      · intro t s
        show (t, s) ∈ st.wildcard_subscribers ↔
          t ∈ ((if s = st.nextId then newSession else st.data s)).wildcard_subscriptions
        rw [hdata s]
        exact inv.wild_iff t s
      · exact inv.lit_nodup
      · exact inv.wild_nodup
      · intro s
        show ((if s = st.nextId then newSession else st.data s)).subscriptions.Nodup
        rw [hdata s]
        exact inv.sub_nodup s
      · intro s
        show ((if s = st.nextId then newSession else st.data s)).wildcard_subscriptions.Nodup
        rw [hdata s]
        exact inv.wsub_nodup s
      · intro cid2 sid2 h2
        show sid2 < st.nextId + 1
        have h3 : alLookup (st.sessions ++ [(cid, st.nextId)]) cid2 = some sid2 := h2
        rw [alLookup_append] at h3
        match h4 : alLookup st.sessions cid2 with
        | some x =>
          rw [h4] at h3
          simp only [Option.some.injEq] at h3
          have := inv.reg_lt cid2 x h4
          omega
        | none =>
          rw [h4] at h3
          simp only [alLookup] at h3
          by_cases h5 : cid = cid2
          · rw [if_pos h5] at h3
            simp only [Option.some.injEq] at h3
            omega
          · rw [if_neg h5] at h3
            exact absurd h3 (by simp [alLookup])
      · intro s hge
        have hge2 : st.nextId + 1 ≤ s := hge
        show (if s = st.nextId then newSession else st.data s) = newSession
        rw [hdata s]
        exact inv.fresh_empty s (by omega)
    · show st.nextId < st.nextId + 1
      omega

theorem updateSession_inv2 (st : BrokerState) (sid : Nat) (f : SessionData → SessionData)
    (h : Inv st ∧ sid < st.nextId)
    (hsub : ∀ s, (f s).subscriptions = s.subscriptions)
    (hwsub : ∀ s, (f s).wildcard_subscriptions = s.wildcard_subscriptions) :
    Inv (updateSession st sid f) ∧ sid < (updateSession st sid f).nextId :=
  ⟨updateSession_inv st sid f h.1 h.2 hsub hwsub,
   by rw [updateSession_nextId]; exact h.2⟩

/-- `on_connect` preserves the subscription-view invariant (it only
creates or cleans sessions via `get_session` and rewrites non-subscription
session fields), and the session it returns is registered below
`nextId`. -/
theorem on_connect_inv (st : BrokerState) (c : Nat) (cid : String) (cs : Bool)
    (wt : Option String) (wm : Option (List Nat)) (wr : Option Bool)
    (props : List (Nat × PropValue)) (u p : Option (List Nat)) (inv : Inv st) :
    Inv (on_connect st c cid cs wt wm wr props u p).state ∧
    (on_connect st c cid cs wt wm wr props u p).sid <
      (on_connect st c cid cs wt wm wr props u p).state.nextId := by
  obtain ⟨inv1, hsid1⟩ := get_session_inv st cid cs inv
  unfold on_connect
  rcases h39 : alLookup props 39 with _ | v
  · rcases h17 : alLookup props 17 with _ | w
    · (dsimp only; repeat' first | exact ⟨inv1, hsid1⟩ | apply updateSession_inv2 | (intro s2; rfl))
    · rcases w with m | b2 <;>
      (dsimp only; repeat' first | exact ⟨inv1, hsid1⟩ | apply updateSession_inv2 | (intro s2; rfl))
  · rcases v with n | b
    · rcases h17 : alLookup props 17 with _ | w
      · (dsimp only; repeat' first | exact ⟨inv1, hsid1⟩ | apply updateSession_inv2 | (intro s2; rfl))
      · rcases w with m | b2 <;>
        (dsimp only; repeat' first | exact ⟨inv1, hsid1⟩ | apply updateSession_inv2 | (intro s2; rfl))
    · rcases h17 : alLookup props 17 with _ | w
      · (dsimp only; repeat' first | exact ⟨inv1, hsid1⟩ | apply updateSession_inv2 | (intro s2; rfl))
      · rcases w with m | b2 <;>
        (dsimp only; repeat' first | exact ⟨inv1, hsid1⟩ | apply updateSession_inv2 | (intro s2; rfl))

theorem subscribeTopic_nextId (st : BrokerState) (sid : Nat) (tp : String) :
    (subscribeTopic st sid tp).nextId = st.nextId := by
  unfold subscribeTopic
  split_ifs <;> rfl

theorem unsubscribeTopic_nextId (st : BrokerState) (sid : Nat) (tp : String) :
    (unsubscribeTopic st sid tp).nextId = st.nextId := by
  unfold unsubscribeTopic
  split_ifs <;> rfl

theorem on_subscribe_inv (topics : List String) (st : BrokerState) (sid : Nat)
    (inv : Inv st) (hsid : sid < st.nextId) : Inv (on_subscribe st sid topics) := by
  induction topics generalizing st inv hsid with
  | nil => exact inv
  | cons t ts ih =>
    show Inv ((t :: ts).foldl (fun s t2 => subscribeTopic s sid t2) st)
    rw [List.foldl_cons]
    exact ih (subscribeTopic st sid t) (subscribeTopic_inv st sid t inv hsid)
      (by rw [subscribeTopic_nextId]; exact hsid)

theorem on_unsubscribe_inv (topics : List String) (st : BrokerState) (sid : Nat)
    (inv : Inv st) (hsid : sid < st.nextId) : Inv (on_unsubscribe st sid topics) := by
  induction topics generalizing st inv hsid with
  | nil => exact inv
  | cons t ts ih =>
    show Inv ((t :: ts).foldl (fun s t2 => unsubscribeTopic s sid t2) st)
    rw [List.foldl_cons]
    exact ih (unsubscribeTopic st sid t) (unsubscribeTopic_inv st sid t inv hsid)
      (by rw [unsubscribeTopic_nextId]; exact hsid)

/-- Every broker event preserves the subscription-view invariant. -/
theorem applyOp_inv (st : BrokerState) (op : Op) (inv : Inv st) :
    Inv (applyOp st op) := by
  cases op with
  | connect c cid cs wt wm wr props u p =>
    exact (on_connect_inv st c cid cs wt wm wr props u p inv).1
  | subscribe cid topics =>
    show Inv (match alLookup st.sessions cid with
      | some sid => on_subscribe st sid topics
      | none => st)
    rcases h : alLookup st.sessions cid with _ | sid
    · exact inv
    · exact on_subscribe_inv topics st sid inv (inv.reg_lt cid sid h)
  | unsubscribe cid topics =>
    show Inv (match alLookup st.sessions cid with
      | some sid => on_unsubscribe st sid topics
      | none => st)
    rcases h : alLookup st.sessions cid with _ | sid
    · exact inv
    · exact on_unsubscribe_inv topics st sid inv (inv.reg_lt cid sid h)
  | pub t m r =>
    show Inv (match on_publish st t m r with
      | some (st1, _) => st1
      | none => st)
    rcases hp : on_publish st t m r with _ | pr
    · exact inv
    · obtain ⟨st1, outs⟩ := pr
      unfold on_publish at hp
      by_cases hw : is_wildcards_in_topic t
      · rw [if_pos hw] at hp
        exact absurd hp (by simp)
      · rw [if_neg hw] at hp
        simp only [Option.some.injEq, Prod.mk.injEq] at hp
        obtain ⟨h1, h2⟩ := hp
        show Inv st1
        rw [← h1]
        by_cases hr : r
        · rw [if_pos hr]
          by_cases hm : m ≠ []
          · rw [if_pos hm]
            exact add_retained_message_inv st t m inv
          · rw [if_neg hm]
            exact remove_retained_message_inv st t inv
        · rw [if_neg hr]
          exact inv

/-- The invariant holds in every reachable broker state. -/
theorem applyOps_inv (ops : List Op) : Inv (applyOps ops) := by
  unfold applyOps
  have h : ∀ st, Inv st → Inv (ops.foldl applyOp st) := by
    induction ops with
    | nil => intro st h2; exact h2
    | cons op rest ih =>
      intro st h2
      rw [List.foldl_cons]
      exact ih _ (applyOp_inv st op h2)
  exact h initialBroker inv_initial

/-! ## Claim C6: consistency of the two subscription views -/

/-- C6: in every broker state reachable by a sequence of CONNECT
(including clean-start), SUBSCRIBE, UNSUBSCRIBE and PUBLISH events, a
session is in the broker's literal subscriber list for a topic iff
that topic is in the session's `subscriptions`, and a pair
`(filter, session)` is in the broker's wildcard subscriber list iff the
filter is in the session's `wildcard_subscriptions`. -/
theorem subscription_views_consistent (ops : List Op) (t : String) (s : Nat) :
    (s ∈ (applyOps ops).subscribers t ↔ t ∈ ((applyOps ops).data s).subscriptions) ∧
    ((t, s) ∈ (applyOps ops).wildcard_subscribers ↔
      t ∈ ((applyOps ops).data s).wildcard_subscriptions) :=
  ⟨(applyOps_inv ops).lit_iff t s, (applyOps_inv ops).wild_iff t s⟩

/-! ## Claim C4: delivery multiplicity -/

/-- C4 counterexample: a session holding both a literal subscription
`a/b` and a wildcard subscription `a/#` receives a PUBLISH on `a/b`
twice: `iter_subscribers` yields once per matching subscription entry and
nothing deduplicates the sessions. -/
theorem duplicate_delivery_counterexample :
    (publish (applyOps
        [Op.connect 1 "c" true none none none [] none none,
         Op.subscribe "c" ["a/b", "a/#"]]) "a/b").count 0 = 2 := by decide

/-- In any state satisfying the subscription-view invariant the number of
times a session is yielded for a topic is one per matching live
subscription entry: one for a literal subscription on the topic itself
plus one per wildcard filter matching it; a session without a bound
connection is never yielded. -/
theorem iter_subscribers_count (st : BrokerState) (t : String) (s : Nat)
    (inv : Inv st) :
    (iter_subscribers st t).count s =
      if (st.data s).client.isSome then
        (if t ∈ (st.data s).subscriptions then 1 else 0) +
        (((st.data s).wildcard_subscriptions).filter (fun f => topicMatches f t)).length
      else 0 := by
  unfold iter_subscribers
  rw [List.count_append]
  cases hlive : (st.data s).client.isSome with
  | false =>
    rw [if_neg Bool.false_ne_true]
    have hA : (List.filter (fun sid => (st.data sid).client.isSome)
        (st.subscribers t)).count s = 0 := by
      apply List.count_eq_zero_of_not_mem
      intro hmem
      have h2 := List.of_mem_filter hmem
      rw [hlive] at h2
      exact Bool.false_ne_true h2
    have hB : ((st.wildcard_subscribers.filter
        (fun pr => (st.data pr.2).client.isSome && topicMatches pr.1 t)).map
          Prod.snd).count s = 0 := by
      apply List.count_eq_zero_of_not_mem
      intro hmem
      rw [List.mem_map] at hmem
      obtain ⟨pr, hpr, hsnd⟩ := hmem
      have h2 := List.of_mem_filter hpr
      rw [Bool.and_eq_true] at h2
      rw [hsnd, hlive] at h2
      exact Bool.false_ne_true h2.1
    rw [hA, hB]
  | true =>
    rw [if_pos rfl]
    have hA : (List.filter (fun sid => (st.data sid).client.isSome)
        (st.subscribers t)).count s =
        if t ∈ (st.data s).subscriptions then 1 else 0 := by
      have hcf : List.count s (List.filter (fun sid => (st.data sid).client.isSome)
          (st.subscribers t)) = List.count s (st.subscribers t) :=
        List.count_filter hlive
      rw [hcf]
      by_cases hm : s ∈ st.subscribers t
      · rw [if_pos ((inv.lit_iff t s).mp hm)]
        exact List.count_eq_one_of_mem (inv.lit_nodup t) hm
      · rw [if_neg (fun hc => hm ((inv.lit_iff t s).mpr hc))]
        exact List.count_eq_zero_of_not_mem hm
    have hB : ((st.wildcard_subscribers.filter
        (fun pr => (st.data pr.2).client.isSome && topicMatches pr.1 t)).map
          Prod.snd).count s =
        (((st.data s).wildcard_subscriptions).filter
          (fun f => topicMatches f t)).length := by
      show List.countP (fun x => x == s) _ = _
      rw [List.countP_map, List.countP_filter]
      have hcong : List.countP
          (fun pr => ((fun x => x == s) ∘ Prod.snd) pr &&
            ((st.data pr.2).client.isSome && topicMatches pr.1 t))
          st.wildcard_subscribers =
          List.countP (fun pr => topicMatches pr.1 t && (pr.2 == s))
            st.wildcard_subscribers := by
        apply List.countP_congr
        intro pr hpr
        by_cases hs : pr.2 = s
        · simp [Function.comp, hs, hlive, Bool.and_comm]
        · simp [Function.comp, hs]
      rw [hcong, ← List.countP_filter]
      have hmap : List.countP (fun f => topicMatches f t)
          ((st.wildcard_subscribers.filter (fun pr => pr.2 == s)).map Prod.fst) =
          List.countP (fun pr => topicMatches pr.1 t)
            (st.wildcard_subscribers.filter (fun pr => pr.2 == s)) :=
        List.countP_map _ _ _
      rw [← hmap]
      have nd1 : ((st.wildcard_subscribers.filter
          (fun pr => pr.2 == s)).map Prod.fst).Nodup := by
        apply List.Nodup.map_on ?inj (inv.wild_nodup.filter _)
        intro pr1 h1 pr2 h2 hf
        have e1 : pr1.2 = s := by simpa using List.of_mem_filter h1
        have e2 : pr2.2 = s := by simpa using List.of_mem_filter h2
        cases pr1
        cases pr2
        simp only at hf e1 e2
        rw [hf, e1, e2]
      have hperm : ((st.wildcard_subscribers.filter
          (fun pr => pr.2 == s)).map Prod.fst).Perm
          ((st.data s).wildcard_subscriptions) := by
        apply (List.perm_ext_iff_of_nodup nd1 (inv.wsub_nodup s)).mpr
        intro f
        rw [List.mem_map]
        constructor
        · rintro ⟨pr, hpr, hfst⟩
          have h2 : pr.2 = s := by simpa using List.of_mem_filter hpr
          have h3 := List.mem_of_mem_filter hpr
          apply (inv.wild_iff f s).mp
          have hpre : pr = (f, s) := by
            cases pr
            simp only at hfst h2
            rw [hfst, h2]
          rw [← hpre]
          exact h3
        · intro hf
          refine ⟨(f, s), ?_, rfl⟩
          apply List.mem_filter.mpr
          exact ⟨(inv.wild_iff f s).mpr hf, by simp⟩
      rw [List.Perm.countP_eq _ hperm, List.countP_eq_length_filter]
    rw [hA, hB]

/-- C4 as amended: one PUBLISH on topic `t` is written to session `s`
once per matching live subscription entry — once if `t` itself is in the
session's literal subscriptions, plus once per wildcard filter of the
session matching `t` — so a session with several matching filters
receives several copies; sessions with no bound connection or no matching
subscription receive none. -/
theorem delivery_count (ops : List Op) (t : String) (s : Nat) :
    (publish (applyOps ops) t).count s =
      if ((applyOps ops).data s).client.isSome then
        (if t ∈ ((applyOps ops).data s).subscriptions then 1 else 0) +
        ((((applyOps ops).data s).wildcard_subscriptions).filter
          (fun f => topicMatches f t)).length
      else 0 :=
  iter_subscribers_count (applyOps ops) t s (applyOps_inv ops)

end Mqttools
